import Mathlib

/-!
Shallow embedding of the "Are You Safe?" check-in / escalation core
(src/serverless/src/routes/checkin.ts, src/serverless/src/routes/settings.ts,
src/serverless/src/cron/scheduler.ts, src/serverless/src/services/twilio.ts,
src/serverless/src/types.ts, src/serverless/migrations/0001_init.sql).

Modelling conventions:
* Timestamps are `Nat` epoch milliseconds.  The source compares ISO-8601
  strings (lexicographically, via SQL `<` on TEXT) and JavaScript `Date`
  values (numerically); for timestamps rendered in the same ISO format the
  two orders agree, so numeric comparison is faithful.
* Identifiers (`user_id`, `event_id`, `contact_id`, `delivery_id`) are `Nat`.
  `generateUUID` is modelled by a fresh-id counter `nextId` in the store.
* The D1 database is a record of lists.  A SQL `.first()` is `List.find?`;
  an `UPDATE ... WHERE id = ?` is a map that rewrites the matching rows;
  an `INSERT` prepends.  The unique index
  `idx_deliveries_event_contact ON alert_deliveries(event_id, contact_id,
  channel)` from migrations/0001_init.sql is modelled by `insertDelivery`
  returning `none` (the INSERT throwing) when a row with the same key exists.
* External effects (APNs push send, phone decryption, Twilio SMS send) are
  driven by an oracle giving each contact's outcome, so that the control
  flow of the per-contact try/catch blocks can be followed faithfully.
* `event_logs` rows keep the columns the core writes except the generated
  `log_id` and the free-form JSON `details` blob, which no logic reads.
-/

namespace AreYouSafe

/-- `CheckinStatus` from types.ts. -/
inductive CheckinStatus where
  | pending
  | confirmed
  | missed
  | snoozed
  | alerted
  | paused
deriving DecidableEq, Repr

/-- `DeliveryStatus` from types.ts. -/
inductive DeliveryStatus where
  | pending
  | sent
  | delivered
  | failed
deriving DecidableEq, Repr

/-- `User` from types.ts (the fields the core reads).  `checkin_times` is the
parsed form of the stored JSON array of `"HH:MM"` strings: a list of
(hour, minute) pairs, parsed once at the boundary. -/
structure User where
  user_id : Nat
  checkin_times : List (Nat × Nat)
  grace_minutes : Nat
  sms_alerts_enabled : Bool
  pause_until : Option Nat
  apns_token : Option Nat
  updated_at : Nat
deriving DecidableEq, Repr

/-- `Contact` from types.ts (the fields escalation reads). -/
structure Contact where
  contact_id : Nat
  user_id : Nat
  phone_enc : Nat
  level : Nat
  has_app : Bool
  apns_token : Option Nat
deriving DecidableEq, Repr

/-- `CheckinEvent` from types.ts. -/
structure CheckinEvent where
  event_id : Nat
  user_id : Nat
  scheduled_time : Nat
  deadline_time : Nat
  status : CheckinStatus
  confirmed_at : Option Nat
  snoozed_until : Option Nat
  snooze_count : Nat
  escalated_at : Option Nat
  created_at : Nat
  updated_at : Nat
deriving DecidableEq, Repr

/-- `AlertDelivery` from types.ts. -/
structure AlertDelivery where
  delivery_id : Nat
  event_id : Nat
  contact_id : Nat
  channel : String
  status : DeliveryStatus
  provider_ref : Option String
  provider_status : Option String
  error_message : Option String
  retry_count : Nat
  max_retries : Nat
  next_retry_at : Option Nat
  sent_at : Option Nat
  created_at : Nat
  updated_at : Nat
deriving DecidableEq, Repr

/-- `EventLog` from types.ts, without the generated `log_id` and the
free-form `details` JSON blob (never read by the core). -/
structure EventLog where
  user_id : Nat
  event_id : Option Nat
  event_type : String
  event_time : Nat
  result : String
deriving DecidableEq, Repr

/-- The D1 store: one list per table, plus a fresh-id supply standing in for
`generateUUID`.  Inserts prepend, so each list is most-recent-first. -/
structure DB where
  users : List User
  events : List CheckinEvent
  contacts : List Contact
  deliveries : List AlertDelivery
  logs : List EventLog
  nextId : Nat
deriving DecidableEq, Repr

/-! ### Time helpers -/

def msPerMinute : Nat := 60000
def msPerHour : Nat := 3600000
def msPerDay : Nat := 86400000

/-- Hour component of `now.toTimeString().substring(0,5)` (UTC runtime). -/
def hourOfDay (t : Nat) : Nat := t / msPerHour % 24

/-- Minute component of the `HH:MM` rendering of a timestamp. -/
def minuteOfHour (t : Nat) : Nat := t / msPerMinute % 60

/-- `todayStart.setHours(0,0,0,0)` on a copy of `now` (UTC runtime). -/
def todayStart (now : Nat) : Nat := now - now % msPerDay

/-! ### twilio.ts -/

/-- The backoff arithmetic inside `calculateNextRetry` (twilio.ts):
`Math.min(Math.pow(2, retryCount), 30)` minutes. -/
def delayMinutes (retryCount : Nat) : Nat := min (2 ^ retryCount) 30

/-- `calculateNextRetry` (twilio.ts): next retry instant, `now` plus the
backoff delay (the source adds `actualDelay` minutes to the current time). -/
def calculateNextRetry (now : Nat) (retryCount : Nat) : Nat :=
  now + delayMinutes retryCount * msPerMinute

/-! ### Store helpers -/

/-- `SELECT * FROM checkin_events WHERE event_id = ?` (first row). -/
def eventOf (events : List CheckinEvent) (eid : Nat) : Option CheckinEvent :=
  events.find? (fun e => e.event_id == eid)

/-- Status of the row `eventOf` finds. -/
def statusOf (events : List CheckinEvent) (eid : Nat) : Option CheckinStatus :=
  (eventOf events eid).map (fun e => e.status)

/-- `SELECT * FROM users WHERE user_id = ?` (first row). -/
def userOf (db : DB) (uid : Nat) : Option User :=
  db.users.find? (fun u => u.user_id == uid)

/-- `UPDATE checkin_events SET ... WHERE event_id = ?`. -/
def updateEventById (events : List CheckinEvent) (eid : Nat)
    (f : CheckinEvent → CheckinEvent) : List CheckinEvent :=
  events.map (fun e => if e.event_id = eid then f e else e)

/-- `INSERT INTO event_logs ...` via the `logEvent` helper. -/
def appendLog (db : DB) (l : EventLog) : DB := { db with logs := l :: db.logs }

/-- The row rewrite of the snooze UPDATE: status `snoozed`, both
`snoozed_until` and `deadline_time` set to the new deadline,
`snooze_count` incremented. -/
def snoozeUpdater (newDeadline now : Nat) (ev : CheckinEvent) : CheckinEvent :=
  { ev with status := .snoozed, snoozed_until := some newDeadline,
            deadline_time := newDeadline,
            snooze_count := ev.snooze_count + 1, updated_at := now }

/-- The row rewrite of the confirm UPDATE. -/
def confirmUpdater (confirmedAt now : Nat) (ev : CheckinEvent) : CheckinEvent :=
  { ev with status := .confirmed, confirmed_at := some confirmedAt, updated_at := now }

/-- The row rewrite of the escalation UPDATE: status `alerted`,
`escalated_at` stamped. -/
def escalateUpdater (now : Nat) (ev : CheckinEvent) : CheckinEvent :=
  { ev with status := .alerted, escalated_at := some now, updated_at := now }

/-! ### cron/scheduler.ts — check-in scheduler -/

/-- `isTimeMatch` (scheduler.ts): current and scheduled `HH:MM` values match
within a 1-minute tolerance of minutes-of-day. -/
def isTimeMatch (ch cm sh sm : Nat) : Bool :=
  decide ((((ch * 60 + cm : Int)) - ((sh * 60 + sm : Int))).natAbs ≤ 1)

/-- `new Date(now)` with `setHours(h, m, 0, 0)` (UTC runtime): the slot
instant for today's date at wall-clock `h:m`. -/
def slotTime (now h m : Nat) : Nat :=
  todayStart now + h * msPerHour + m * msPerMinute

/-- The duplicate guard in `handleScheduledCheckins`: `SELECT event_id FROM
checkin_events WHERE user_id = ? AND scheduled_time >= todayStart AND
scheduled_time LIKE '%THH:MM%'`.  For ISO timestamps the LIKE pattern holds
exactly when the hour and minute components equal the slot's. -/
def hasEventForSlot (db : DB) (uid now h m : Nat) : Bool :=
  db.events.any (fun e =>
    e.user_id == uid && decide (todayStart now ≤ e.scheduled_time) &&
      hourOfDay e.scheduled_time == h && minuteOfHour e.scheduled_time == m)

/-- `createPendingEvent` (scheduler.ts): skip silently if the computed slot
is already in the past, otherwise insert a `pending` event with
`deadline_time = scheduled_time + grace_minutes`, best-effort push (no store
effect; failures only logged) and a `checkin_scheduled` audit entry. -/
def createPendingEvent (db : DB) (u : User) (h m now : Nat) : DB :=
  let s := slotTime now h m
  if s < now then db
  else
    let eid := db.nextId
    let ev : CheckinEvent :=
      { event_id := eid, user_id := u.user_id, scheduled_time := s,
        deadline_time := s + u.grace_minutes * msPerMinute,
        status := .pending, confirmed_at := none, snoozed_until := none,
        snooze_count := 0, escalated_at := none,
        created_at := now, updated_at := now }
    let db' : DB := { db with events := ev :: db.events, nextId := db.nextId + 1 }
    appendLog db' { user_id := u.user_id, event_id := some eid,
                    event_type := "checkin_scheduled", event_time := now,
                    result := "ok" }

/-- Body of the inner loop of `handleScheduledCheckins` for one configured
time-of-day: create the event iff the time matches and no event exists for
the slot. -/
def scheduleUserTime (now : Nat) (u : User) (db : DB) (t : Nat × Nat) : DB :=
  if isTimeMatch (hourOfDay now) (minuteOfHour now) t.1 t.2 &&
      !(hasEventForSlot db u.user_id now t.1 t.2)
  then createPendingEvent db u t.1 t.2 now
  else db

/-- One user's pass of `handleScheduledCheckins` (the per-user try/catch
body; `JSON.parse` of the stored times is done at the boundary). -/
def processUser (now : Nat) (db : DB) (u : User) : DB :=
  u.checkin_times.foldl (scheduleUserTime now u) db

/-- The active-user scan predicate `pause_until IS NULL OR pause_until < ?`
used by both the scheduler and the escalation scan. -/
def isActiveUser (now : Nat) (u : User) : Bool :=
  match u.pause_until with
  | none => true
  | some t => decide (t < now)

/-- `handleScheduledCheckins` (scheduler.ts). -/
def handleScheduledCheckins (db : DB) (now : Nat) : DB :=
  (db.users.filter (isActiveUser now)).foldl (processUser now) db

/-! ### cron/scheduler.ts — escalation engine -/

/-- Outcome of one contact's external effects, supplied as an oracle:
whether `sendContactAlert` succeeds (else it throws, caught by the inner
push catch), whether `decrypt` succeeds (else it throws, caught by the
outer per-contact catch), and the Twilio `sendSMS` result. -/
structure ContactOutcome where
  pushOk : Bool
  decryptOk : Bool
  smsOk : Bool
  smsSid : String
  smsStatus : String
  errorMessage : String
deriving DecidableEq, Repr

/-- Per-contact external outcomes, keyed by `contact_id`. -/
def SendOracle : Type := Nat → ContactOutcome

/-- One element of the `deliveries` array `triggerEscalation` returns. -/
structure ContactDelivery where
  contact_id : Nat
  status : String
  error : Option String
deriving DecidableEq, Repr

/-- The record `triggerEscalation` returns. -/
structure EscalationSummary where
  event_id : Nat
  contacts_notified : Nat
  deliveries : List ContactDelivery
deriving DecidableEq, Repr

/-- The idempotency guard query: `SELECT delivery_id FROM alert_deliveries
WHERE event_id = ? AND contact_id = ? AND channel = 'sms'`. -/
def smsRowExists (db : DB) (eid cid : Nat) : Bool :=
  db.deliveries.any (fun d =>
    d.event_id == eid && d.contact_id == cid && d.channel == "sms")

/-- `INSERT INTO alert_deliveries ...` under the unique index
`idx_deliveries_event_contact (event_id, contact_id, channel)`
(migrations/0001_init.sql): `none` models the INSERT throwing on a
duplicate key. -/
def insertDelivery (db : DB) (d : AlertDelivery) : Option DB :=
  if db.deliveries.any (fun d0 =>
      d0.event_id == d.event_id && d0.contact_id == d.contact_id &&
        d0.channel == d.channel)
  then none
  else some { db with deliveries := d :: db.deliveries }

/-- `UPDATE alert_deliveries SET ... WHERE delivery_id = ?`. -/
def updateDeliveryById (db : DB) (did : Nat) (f : AlertDelivery → AlertDelivery) : DB :=
  { db with deliveries := db.deliveries.map (fun d => if d.delivery_id = did then f d else d) }

/-- A fresh `alert_deliveries` row as the escalation loop inserts it
(`max_retries` defaults to 3 per migrations/0001_init.sql). -/
def mkDelivery (did eid cid : Nat) (channel : String) (st : DeliveryStatus)
    (sent : Option Nat) (now : Nat) : AlertDelivery :=
  { delivery_id := did, event_id := eid, contact_id := cid, channel := channel,
    status := st, provider_ref := none, provider_status := none,
    error_message := none, retry_count := 0, max_retries := 3,
    next_retry_at := none, sent_at := sent, created_at := now, updated_at := now }

/-- The best-effort push block of the per-contact loop (the inner
try/catch): if the contact has the app and a push destination and the send
succeeds, record a `sent` push delivery row; a throw from the send or a
duplicate-row INSERT is swallowed. -/
def pushPhase (eid now : Nat) (oracle : SendOracle) (db : DB) (c : Contact) : DB :=
  if c.has_app && c.apns_token.isSome then
    if (oracle c.contact_id).pushOk then
      match insertDelivery db (mkDelivery db.nextId eid c.contact_id "push" .sent (some now) now) with
      | some db' => { db' with nextId := db'.nextId + 1 }
      | none => db     -- duplicate push row: INSERT throws, inner catch swallows
    else db            -- sendContactAlert threw; inner catch swallows
  else db

/-- Decrypt, insert the `pending` sms row, send, and record the
sent/failed outcome; exceptions land in the outer per-contact catch as an
`error` result. -/
def smsPhase (eid now : Nat) (oracle : SendOracle) (db1 : DB) (c : Contact) :
    DB × ContactDelivery :=
  let oc := oracle c.contact_id
  if !oc.decryptOk then
    -- decrypt threw: outer per-contact catch records an error result
    (db1, { contact_id := c.contact_id, status := "error", error := some oc.errorMessage })
  else
    let did := db1.nextId
    match insertDelivery db1 (mkDelivery did eid c.contact_id "sms" .pending none now) with
    | none =>
      -- duplicate sms row: INSERT throws, outer per-contact catch records it
      (db1, { contact_id := c.contact_id, status := "error",
              error := some "UNIQUE constraint failed" })
    | some db2 =>
      let db3 : DB := { db2 with nextId := db2.nextId + 1 }
      if oc.smsOk then
        (updateDeliveryById db3 did (fun d =>
            { d with status := .sent, provider_ref := some oc.smsSid,
                     provider_status := some oc.smsStatus,
                     sent_at := some now, updated_at := now }),
         { contact_id := c.contact_id, status := "sent", error := none })
      else
        (updateDeliveryById db3 did (fun d =>
            { d with status := .failed, error_message := some oc.errorMessage,
                     next_retry_at := some (calculateNextRetry now 0),
                     updated_at := now }),
         { contact_id := c.contact_id, status := "failed", error := some oc.errorMessage })

/-- Body of the per-contact loop of `triggerEscalation`, including both
try/catch levels: the sms-row idempotency skip, the best-effort push block,
phone decryption, the pending sms row insert, the send, and the
sent/failed row update. -/
def processContact (eid now : Nat) (oracle : SendOracle) (db : DB) (c : Contact) :
    DB × ContactDelivery :=
  if smsRowExists db eid c.contact_id then
    (db, { contact_id := c.contact_id, status := "already_exists", error := none })
  else
    smsPhase eid now oracle (pushPhase eid now oracle db c) c

/-- Stable insertion into a level-ascending list (`ORDER BY level ASC`). -/
def insertByLevel (c : Contact) : List Contact → List Contact
  | [] => [c]
  | d :: ds => if c.level ≤ d.level then c :: d :: ds else d :: insertByLevel c ds

/-- Stable sort by ascending contact level. -/
def sortByLevel : List Contact → List Contact
  | [] => []
  | c :: cs => insertByLevel c (sortByLevel cs)

/-- `SELECT * FROM contacts WHERE user_id = ? ORDER BY level ASC`. -/
def contactsOf (db : DB) (uid : Nat) : List Contact :=
  sortByLevel (db.contacts.filter (fun c => c.user_id == uid))

/-- The contact loop of `triggerEscalation`, threading the store and
accumulating one result per contact in order. -/
def runContacts (eid now : Nat) (oracle : SendOracle) (db : DB) :
    List Contact → DB × List ContactDelivery
  | [] => (db, [])
  | c :: cs =>
    let p := processContact eid now oracle db c
    let r := runContacts eid now oracle p.1 cs
    (r.1, p.2 :: r.2)

/-- `triggerEscalation` (scheduler.ts).  `none` models the
`throw new Error('Event not found')` when the event/user join is empty.
Note the status update to `alerted` is unconditional: the source never
inspects the event's current status. -/
def triggerEscalation (db : DB) (eid now : Nat) (oracle : SendOracle) :
    Option (DB × EscalationSummary) :=
  match db.events.find? (fun e => e.event_id == eid) with
  | none => none
  | some e =>
    match userOf db e.user_id with
    | none => none
    | some u =>
      let dbA : DB := { db with events := updateEventById db.events eid (escalateUpdater now) }
      let dbB := appendLog dbA
        { user_id := e.user_id, event_id := some eid,
          event_type := "checkin_escalated", event_time := now, result := "missed" }
      if !u.sms_alerts_enabled then
        some (dbB, { event_id := eid, contacts_notified := 0, deliveries := [] })
      else
        let cs := contactsOf dbB e.user_id
        if cs.isEmpty then
          some (dbB, { event_id := eid, contacts_notified := 0, deliveries := [] })
        else
          let r := runContacts eid now oracle dbB cs
          let dbC := appendLog r.1
            { user_id := e.user_id, event_id := some eid,
              event_type := "contacts_alerted", event_time := now, result := "ok" }
          some (dbC,
            { event_id := eid,
              contacts_notified := (r.2.filter (fun d => d.status == "sent")).length,
              deliveries := r.2 })

/-- The escalation scan predicate of `handleEscalations`: status in
(pending, snoozed), deadline passed, and the joined user not paused. -/
def isOverdue (db : DB) (now : Nat) (e : CheckinEvent) : Bool :=
  (e.status == .pending || e.status == .snoozed) &&
    decide (e.deadline_time < now) &&
    (match userOf db e.user_id with
     | none => false
     | some u => isActiveUser now u)

/-- `handleEscalations` (scheduler.ts): scan once, then escalate each
overdue event, catching per-event errors. -/
def handleEscalations (db : DB) (now : Nat) (oracle : SendOracle) : DB :=
  (db.events.filter (isOverdue db now)).foldl
    (fun db' e =>
      match triggerEscalation db' e.event_id now oracle with
      | some p => p.1
      | none => db')
    db

/-! ### routes/checkin.ts — check-in action handler -/

/-- `ConfirmRequest` from types.ts (optional fields per the runtime checks,
values as timestamps). -/
structure ConfirmRequest where
  event_id : Option Nat
  scheduled_at : Option Nat
  confirmed_at : Option Nat
deriving DecidableEq, Repr

/-- The 200 response of `POST /api/checkin/confirm`. -/
structure ConfirmResponse where
  success : Bool
  event_id : Nat
  status : CheckinStatus
  confirmed_at : Option Nat
  was_escalated : Bool
  message : Option String
deriving DecidableEq, Repr

/-- `SnoozeRequest` from types.ts (optional per the runtime checks). -/
structure SnoozeRequest where
  event_id : Option Nat
  snooze_minutes : Option Nat
deriving DecidableEq, Repr

/-- The distinguishable results of `POST /api/checkin/snooze`: one success
shape and the four distinct error responses of the source. -/
inductive SnoozeOutcome where
  | success (event_id snoozed_until original_deadline : Nat)
  | missingEventId
  | invalidMinutes
  | notFound
  | alreadySnoozed
  | cannotSnooze (st : CheckinStatus)
deriving DecidableEq, Repr

/-- The most-recent-pending lookup: `SELECT * FROM checkin_events WHERE
user_id = ? AND status IN ('pending','snoozed') ORDER BY scheduled_time
DESC LIMIT 1`. -/
def latestPendingEvent (db : DB) (uid : Nat) : Option CheckinEvent :=
  (db.events.filter (fun e =>
      e.user_id == uid && (e.status == .pending || e.status == .snoozed))).foldl
    (fun acc e =>
      match acc with
      | none => some e
      | some a => if a.scheduled_time < e.scheduled_time then some e else acc)
    none

/-- The three confirm lookup strategies, in the source's priority order:
by `event_id`, else by exact `scheduled_at`, else most recent
pending/snoozed. -/
def lookupConfirmEvent (db : DB) (uid : Nat) (req : ConfirmRequest) :
    Option CheckinEvent :=
  match req.event_id with
  | some eid => db.events.find? (fun e => e.event_id == eid && e.user_id == uid)
  | none =>
    match req.scheduled_at with
    | some t => db.events.find? (fun e => e.user_id == uid && e.scheduled_time == t)
    | none => latestPendingEvent db uid

/-- `POST /api/checkin/confirm` (checkin.ts), for an authenticated user. -/
def confirm (db : DB) (uid : Nat) (req : ConfirmRequest) (now : Nat) :
    DB × ConfirmResponse :=
  let confirmedAt := req.confirmed_at.getD now
  match lookupConfirmEvent db uid req with
  | none =>
    -- no matching event: synthesize an already-confirmed event
    let eid := db.nextId
    let s := req.scheduled_at.getD now
    let ev : CheckinEvent :=
      { event_id := eid, user_id := uid, scheduled_time := s, deadline_time := s,
        status := .confirmed, confirmed_at := some confirmedAt,
        snoozed_until := none, snooze_count := 0, escalated_at := none,
        created_at := now, updated_at := now }
    let db1 : DB := { db with events := ev :: db.events, nextId := db.nextId + 1 }
    let db2 := appendLog db1
      { user_id := uid, event_id := some eid, event_type := "checkin_confirmed",
        event_time := confirmedAt, result := "ok" }
    (db2, { success := true, event_id := eid, status := .confirmed,
            confirmed_at := some confirmedAt, was_escalated := false,
            message := some "Check-in confirmed (new event created)" })
  | some e =>
    if e.status = .confirmed then
      -- idempotent path: no store write at all
      (db, { success := true, event_id := e.event_id, status := .confirmed,
             confirmed_at := e.confirmed_at, was_escalated := false,
             message := some "Already confirmed" })
    else if e.status = .alerted then
      let db1 : DB := { db with
        events := updateEventById db.events e.event_id (confirmUpdater confirmedAt now) }
      let db2 := appendLog db1
        { user_id := uid, event_id := some e.event_id,
          event_type := "checkin_confirmed_late", event_time := confirmedAt,
          result := "ok" }
      (db2, { success := true, event_id := e.event_id, status := .confirmed,
              confirmed_at := some confirmedAt, was_escalated := true,
              message := some "Confirmed, but alerts were already sent to your contacts." })
    else
      let db1 : DB := { db with
        events := updateEventById db.events e.event_id (confirmUpdater confirmedAt now) }
      let db2 := appendLog db1
        { user_id := uid, event_id := some e.event_id,
          event_type := "checkin_confirmed", event_time := confirmedAt,
          result := "ok" }
      (db2, { success := true, event_id := e.event_id, status := .confirmed,
              confirmed_at := some confirmedAt, was_escalated := false,
              message := none })

/-- The JavaScript default `body.snooze_minutes || 10` (absent or falsy 0
becomes 10). -/
def effectiveSnoozeMinutes (req : SnoozeRequest) : Nat :=
  match req.snooze_minutes with
  | none => 10
  | some m => if m = 0 then 10 else m

/-- The snooze event lookup: `SELECT * FROM checkin_events WHERE
event_id = ? AND user_id = ?` (first row). -/
def findSnoozeEvent (db : DB) (uid eid : Nat) : Option CheckinEvent :=
  db.events.find? (fun e => e.event_id == eid && e.user_id == uid)

/-- `POST /api/checkin/snooze` (checkin.ts), for an authenticated user. -/
def snooze (db : DB) (uid : Nat) (req : SnoozeRequest) (now : Nat) :
    DB × SnoozeOutcome :=
  match req.event_id with
  | none => (db, .missingEventId)
  | some eid =>
    let m := effectiveSnoozeMinutes req
    if ¬ (m = 5 ∨ m = 10 ∨ m = 15 ∨ m = 30) then (db, .invalidMinutes)
    else
      match findSnoozeEvent db uid eid with
      | none => (db, .notFound)
      | some e =>
        if 1 ≤ e.snooze_count then (db, .alreadySnoozed)
        else if ¬ (e.status = .pending ∨ e.status = .snoozed) then
          (db, .cannotSnooze e.status)
        else
          let newDeadline := e.deadline_time + m * msPerMinute
          let db1 : DB := { db with
            events := updateEventById db.events e.event_id (snoozeUpdater newDeadline now) }
          let db2 := appendLog db1
            { user_id := uid, event_id := some e.event_id,
              event_type := "checkin_snoozed", event_time := now, result := "ok" }
          (db2, .success e.event_id newDeadline e.deadline_time)

/-- Whether a snooze outcome is the success shape. -/
def isSnoozeSuccess : SnoozeOutcome → Bool
  | .success _ _ _ => true
  | _ => false

/-- The result status the escalation loop records for a contact with no
prior sms delivery row, as a function of that contact's own external
outcomes only. -/
def expectedContactStatus (oc : ContactOutcome) : String :=
  if ¬ oc.decryptOk then "error" else if oc.smsOk then "sent" else "failed"

/-- The error field the escalation loop records for a contact with no
prior sms delivery row. -/
def expectedContactError (oc : ContactOutcome) : Option String :=
  if ¬ oc.decryptOk then some oc.errorMessage
  else if oc.smsOk then none
  else some oc.errorMessage

/-! ### routes/settings.ts — pause -/

/-- Results of `POST /api/settings/pause`. -/
inductive PauseOutcome where
  | pausedOk (pause_until : Nat)
  | resumedOk
  | invalidPauseUntil
deriving DecidableEq, Repr

/-- `POST /api/settings/pause` (settings.ts): validate, store the user's
`pause_until`, and when pausing flip every pending/snoozed event of the
user to `paused`. -/
def setPause (db : DB) (uid : Nat) (pause_until : Option Nat) (now : Nat) :
    DB × PauseOutcome :=
  match pause_until with
  | some t =>
    if t ≤ now then (db, .invalidPauseUntil)
    else
      let db1 : DB := { db with users := db.users.map (fun u =>
        if u.user_id = uid then { u with pause_until := some t, updated_at := now } else u) }
      let db2 : DB := { db1 with events := db1.events.map (fun e =>
        if e.user_id = uid ∧ (e.status = .pending ∨ e.status = .snoozed)
        then { e with status := .paused, updated_at := now } else e) }
      let db3 := appendLog db2
        { user_id := uid, event_id := none, event_type := "monitoring_paused",
          event_time := now, result := "ok" }
      (db3, .pausedOk t)
  | none =>
    let db1 : DB := { db with users := db.users.map (fun u =>
      if u.user_id = uid then { u with pause_until := none, updated_at := now } else u) }
    let db2 := appendLog db1
      { user_id := uid, event_id := none, event_type := "monitoring_resumed",
        event_time := now, result := "ok" }
    (db2, .resumedOk)

end AreYouSafe

namespace AreYouSafe

/-! ### Helper lemmas -/

/-- A first-row lookup by a `Nat` key finds a known member when the keys in
the table are distinct. -/
theorem find?_key_of_nodup {α : Type} (key : α → Nat) (l : List α)
    (hnd : (l.map key).Nodup) (a : α) (ha : a ∈ l) :
    l.find? (fun x => key x == key a) = some a := by
  induction l with
  | nil => cases ha
  | cons b l ih =>
    rcases List.mem_cons.mp ha with rfl | ha'
    · exact List.find?_cons_of_pos _ (by simp)
    · have hne : key b ≠ key a := by
        intro h
        have : key a ∈ l.map key := List.mem_map_of_mem key ha'
        rw [← h] at this
        exact (List.nodup_cons.mp hnd).1 this
      rw [List.find?_cons_of_neg _ (by simp [hne])]
      exact ih (List.nodup_cons.mp hnd).2 ha'

theorem eventOf_of_mem_nodup (events : List CheckinEvent)
    (hnd : (events.map (fun e => e.event_id)).Nodup)
    (e : CheckinEvent) (he : e ∈ events) :
    eventOf events e.event_id = some e := by
  simpa [eventOf] using find?_key_of_nodup (fun x : CheckinEvent => x.event_id) events hnd e he

theorem userOf_of_mem_nodup (db : DB)
    (hnd : (db.users.map (fun u => u.user_id)).Nodup)
    (u : User) (hu : u ∈ db.users) :
    userOf db u.user_id = some u := by
  simpa [userOf] using find?_key_of_nodup (fun x : User => x.user_id) db.users hnd u hu

/-- A keyed in-place table update targeting a different key does not change
what a first-row lookup finds. -/
theorem find?_map_update_ne {α : Type} (key : α → Nat) (upd : α → α)
    (hupd : ∀ a, key (upd a) = key a) (tid eid : Nat) (hne : tid ≠ eid) :
    ∀ l : List α,
      (l.map (fun a => if key a = tid then upd a else a)).find?
          (fun a => key a == eid) =
        l.find? (fun a => key a == eid)
  | [] => rfl
  | b :: l => by
    simp only [List.map_cons]
    by_cases hb : key b = tid
    · rw [if_pos hb, List.find?_cons_of_neg _ (by simp [hupd b, hb, hne]),
          List.find?_cons_of_neg _ (by simp [hb, hne])]
      exact find?_map_update_ne key upd hupd tid eid hne l
    · rw [if_neg hb]
      by_cases hbe : key b = eid
      · rw [List.find?_cons_of_pos _ (by simp [hbe]),
            List.find?_cons_of_pos _ (by simp [hbe])]
      · rw [List.find?_cons_of_neg _ (by simp [hbe]),
            List.find?_cons_of_neg _ (by simp [hbe])]
        exact find?_map_update_ne key upd hupd tid eid hne l

/-- A keyed in-place table update is visible to a first-row lookup of the
targeted key. -/
theorem find?_map_update_self {α : Type} (key : α → Nat) (upd : α → α)
    (hupd : ∀ a, key (upd a) = key a) (tid : Nat) :
    ∀ l : List α,
      (l.map (fun a => if key a = tid then upd a else a)).find?
          (fun a => key a == tid) =
        (l.find? (fun a => key a == tid)).map upd
  | [] => rfl
  | b :: l => by
    simp only [List.map_cons]
    by_cases hb : key b = tid
    · rw [if_pos hb, List.find?_cons_of_pos _ (by simp [hupd b, hb]),
          List.find?_cons_of_pos _ (by simp [hb])]
      rfl
    · rw [if_neg hb, List.find?_cons_of_neg _ (by simp [hb]),
          List.find?_cons_of_neg _ (by simp [hb])]
      exact find?_map_update_self key upd hupd tid l

/-- An update targeting a different `event_id` does not change what the
first-row lookup finds. -/
theorem eventOf_updateEventById_ne (events : List CheckinEvent) (tid : Nat)
    (f : CheckinEvent → CheckinEvent) (hf : ∀ e, (f e).event_id = e.event_id)
    (eid : Nat) (hne : eid ≠ tid) :
    eventOf (updateEventById events tid f) eid = eventOf events eid := by
  simpa [eventOf, updateEventById] using
    find?_map_update_ne (fun e : CheckinEvent => e.event_id) f hf tid eid
      (fun h => hne h.symm) events

/-- The first-row lookup of the targeted `event_id` sees the update. -/
theorem eventOf_updateEventById_self (events : List CheckinEvent) (tid : Nat)
    (f : CheckinEvent → CheckinEvent) (hf : ∀ e, (f e).event_id = e.event_id) :
    eventOf (updateEventById events tid f) tid = (eventOf events tid).map f := by
  simpa [eventOf, updateEventById] using
    find?_map_update_self (fun e : CheckinEvent => e.event_id) f hf tid events

/-- Rows an update does not target stay in the table unchanged. -/
theorem mem_updateEventById_of_ne (events : List CheckinEvent) (tid : Nat)
    (f : CheckinEvent → CheckinEvent) (e : CheckinEvent)
    (he : e ∈ events) (hne : e.event_id ≠ tid) :
    e ∈ updateEventById events tid f := by
  have : (if e.event_id = tid then f e else e) = e := if_neg hne
  simpa [updateEventById, this] using List.mem_map_of_mem (fun x => if x.event_id = tid then f x else x) he

/-! ### Claim C3 — retry backoff -/

/-- C3: the retry backoff is the pure function
`delay_minutes(retry_count) = min(2^retry_count, 30)`; for retry counts
0..6 the delays are exactly [1, 2, 4, 8, 16, 30, 30], and the next retry
instant is `now + delay_minutes` (in minutes). -/
theorem backoff_spec :
    ((List.range 7).map delayMinutes = [1, 2, 4, 8, 16, 30, 30]) ∧
    (∀ r : Nat, delayMinutes r = min (2 ^ r) 30) ∧
    (∀ now r : Nat, calculateNextRetry now r = now + delayMinutes r * msPerMinute) :=
  ⟨by decide, fun _ => rfl, fun _ _ => rfl⟩

/-! ### Claim C2 — scheduler slot creation -/

/-- C2: for a configured time-of-day that matches "now" within the ±1
minute tolerance and has no event in its slot yet, the scheduler inserts a
new `pending` event with `deadline_time = scheduled_time + grace_minutes`;
if the computed scheduled time is already in the past relative to "now" it
skips silently, changing nothing.  `scheduleUserTime` is the body of the
inner loop of `handleScheduledCheckins` for one (user, time-of-day) pair,
reached exactly for users passing the active (non-paused) scan filter. -/
theorem scheduler_slot_spec (db : DB) (u : User) (now h m : Nat)
    (hmatch : isTimeMatch (hourOfDay now) (minuteOfHour now) h m = true)
    (hnone : hasEventForSlot db u.user_id now h m = false) :
    (now ≤ slotTime now h m →
      ∃ ev : CheckinEvent,
        (scheduleUserTime now u db (h, m)).events = ev :: db.events ∧
        ev.user_id = u.user_id ∧
        ev.status = .pending ∧
        ev.scheduled_time = slotTime now h m ∧
        ev.deadline_time = slotTime now h m + u.grace_minutes * msPerMinute) ∧
    (slotTime now h m < now → scheduleUserTime now u db (h, m) = db) := by
  constructor
  · intro hle
    have hnl : ¬ slotTime now h m < now := by omega
    refine ⟨{ event_id := db.nextId, user_id := u.user_id,
              scheduled_time := slotTime now h m,
              deadline_time := slotTime now h m + u.grace_minutes * msPerMinute,
              status := .pending, confirmed_at := none, snoozed_until := none,
              snooze_count := 0, escalated_at := none,
              created_at := now, updated_at := now }, ?_, rfl, rfl, rfl, rfl⟩
    simp [scheduleUserTime, hmatch, hnone, createPendingEvent, hnl, appendLog]
  · intro hlt
    simp [scheduleUserTime, hmatch, hnone, createPendingEvent, hlt]

/-- Concrete instantiation of `scheduler_slot_spec`: a user scheduled at
09:00 with a 10-minute grace window, at the 09:00:00 tick, on an empty
store. -/
theorem scheduler_slot_spec_witness :
    (isTimeMatch (hourOfDay 32400000) (minuteOfHour 32400000) 9 0 = true) ∧
    (hasEventForSlot ⟨[], [], [], [], [], 0⟩ 7 32400000 9 0 = false) ∧
    ((32400000 ≤ slotTime 32400000 9 0 →
      ∃ ev : CheckinEvent,
        (scheduleUserTime 32400000 ⟨7, [(9, 0)], 10, true, none, none, 0⟩
            ⟨[], [], [], [], [], 0⟩ (9, 0)).events = ev :: ([] : List CheckinEvent) ∧
        ev.user_id = 7 ∧
        ev.status = .pending ∧
        ev.scheduled_time = slotTime 32400000 9 0 ∧
        ev.deadline_time = slotTime 32400000 9 0 + 10 * msPerMinute) ∧
     (slotTime 32400000 9 0 < 32400000 →
      scheduleUserTime 32400000 ⟨7, [(9, 0)], 10, true, none, none, 0⟩
          ⟨[], [], [], [], [], 0⟩ (9, 0) = ⟨[], [], [], [], [], 0⟩)) :=
  ⟨by decide, by decide,
    scheduler_slot_spec ⟨[], [], [], [], [], 0⟩ ⟨7, [(9, 0)], 10, true, none, none, 0⟩
      32400000 9 0 (by decide) (by decide)⟩

/-! ### Claim C4 — snooze success condition and effects -/

/-- C4: snooze succeeds exactly when the event exists for the user in
status `pending`/`snoozed` with `snooze_count` below the cap of 1 and the
requested minutes resolve to the fixed menu {5, 10, 15, 30}; on success it
extends `deadline_time` by the requested minutes, sets status `snoozed`,
and increments `snooze_count`; an over-cap attempt returns the
distinguishable `alreadySnoozed` error and leaves the store (hence
`deadline_time`) unchanged. -/
theorem snooze_spec (db : DB) (uid : Nat) (req : SnoozeRequest) (now : Nat)
    (hnd : (db.events.map (fun e => e.event_id)).Nodup) :
    (isSnoozeSuccess (snooze db uid req now).2 = true ↔
      ∃ eid e, req.event_id = some eid ∧ findSnoozeEvent db uid eid = some e ∧
        (e.status = .pending ∨ e.status = .snoozed) ∧ e.snooze_count < 1 ∧
        (effectiveSnoozeMinutes req = 5 ∨ effectiveSnoozeMinutes req = 10 ∨
         effectiveSnoozeMinutes req = 15 ∨ effectiveSnoozeMinutes req = 30)) ∧
    (∀ eid e, req.event_id = some eid → findSnoozeEvent db uid eid = some e →
      (e.status = .pending ∨ e.status = .snoozed) → e.snooze_count < 1 →
      (effectiveSnoozeMinutes req = 5 ∨ effectiveSnoozeMinutes req = 10 ∨
       effectiveSnoozeMinutes req = 15 ∨ effectiveSnoozeMinutes req = 30) →
      (snooze db uid req now).2 = .success e.event_id
          (e.deadline_time + effectiveSnoozeMinutes req * msPerMinute)
          e.deadline_time ∧
      eventOf (snooze db uid req now).1.events e.event_id =
        some { e with status := .snoozed,
                      snoozed_until :=
                        some (e.deadline_time + effectiveSnoozeMinutes req * msPerMinute),
                      deadline_time :=
                        e.deadline_time + effectiveSnoozeMinutes req * msPerMinute,
                      snooze_count := e.snooze_count + 1, updated_at := now }) ∧
    (∀ eid e, req.event_id = some eid →
      (effectiveSnoozeMinutes req = 5 ∨ effectiveSnoozeMinutes req = 10 ∨
       effectiveSnoozeMinutes req = 15 ∨ effectiveSnoozeMinutes req = 30) →
      findSnoozeEvent db uid eid = some e → 1 ≤ e.snooze_count →
      snooze db uid req now = (db, .alreadySnoozed)) := by
  refine ⟨?_, ?_, ?_⟩
  · constructor
    · intro hs
      cases hreq : req.event_id with
      | none => simp [snooze, hreq, isSnoozeSuccess] at hs
      | some eid =>
        by_cases hm : effectiveSnoozeMinutes req = 5 ∨ effectiveSnoozeMinutes req = 10 ∨
            effectiveSnoozeMinutes req = 15 ∨ effectiveSnoozeMinutes req = 30
        · cases hfind : findSnoozeEvent db uid eid with
          | none => simp [snooze, hreq, hfind, hm, isSnoozeSuccess] at hs
          | some e =>
            by_cases hc : 1 ≤ e.snooze_count
            · simp [snooze, hreq, hfind, hm, hc, isSnoozeSuccess] at hs
            · by_cases hst : e.status = .pending ∨ e.status = .snoozed
              · exact ⟨eid, e, rfl, hfind, hst, by omega, hm⟩
              · simp [snooze, hreq, hfind, hm, hc, hst, isSnoozeSuccess] at hs
        · simp [snooze, hreq, hm, isSnoozeSuccess] at hs
    · rintro ⟨eid, e, hreq, hfind, hst, hc, hm⟩
      have hc' : ¬ 1 ≤ e.snooze_count := by omega
      simp [snooze, hreq, hfind, hm, hc', hst, isSnoozeSuccess]
  · intro eid e hreq hfind hst hc hm
    have hc' : ¬ 1 ≤ e.snooze_count := by omega
    have hmem : e ∈ db.events := List.mem_of_find?_eq_some hfind
    have hev : (snooze db uid req now).1.events =
        updateEventById db.events e.event_id
          (snoozeUpdater (e.deadline_time + effectiveSnoozeMinutes req * msPerMinute) now) := by
      simp [snooze, hreq, hfind, hm, hc', hst, appendLog]
    constructor
    · simp [snooze, hreq, hfind, hm, hc', hst]
    · rw [hev, eventOf_updateEventById_self db.events e.event_id
            (snoozeUpdater (e.deadline_time + effectiveSnoozeMinutes req * msPerMinute) now)
            (fun _ => rfl),
          eventOf_of_mem_nodup db.events hnd e hmem]
      simp [snoozeUpdater]
  · intro eid e hreq hm hfind hc
    simp [snooze, hreq, hfind, hm, hc]

/-- Concrete instantiation of `snooze_spec`: a single pending event,
snoozed by 15 minutes. -/
theorem snooze_spec_witness :
    ((([{ event_id := 10, user_id := 1, scheduled_time := 1000,
          deadline_time := 2000, status := .pending, confirmed_at := none,
          snoozed_until := none, snooze_count := 0, escalated_at := none,
          created_at := 0, updated_at := 0 }] : List CheckinEvent).map
        (fun e => e.event_id)).Nodup) ∧
    (isSnoozeSuccess (snooze
        ⟨[], [{ event_id := 10, user_id := 1, scheduled_time := 1000,
                deadline_time := 2000, status := .pending, confirmed_at := none,
                snoozed_until := none, snooze_count := 0, escalated_at := none,
                created_at := 0, updated_at := 0 }], [], [], [], 11⟩
        1 ⟨some 10, some 15⟩ 5000).2 = true) :=
  ⟨by decide,
    ((snooze_spec
        ⟨[], [{ event_id := 10, user_id := 1, scheduled_time := 1000,
                deadline_time := 2000, status := .pending, confirmed_at := none,
                snoozed_until := none, snooze_count := 0, escalated_at := none,
                created_at := 0, updated_at := 0 }], [], [], [], 11⟩
        1 ⟨some 10, some 15⟩ 5000 (by decide)).1).mpr
      ⟨10, { event_id := 10, user_id := 1, scheduled_time := 1000,
             deadline_time := 2000, status := .pending, confirmed_at := none,
             snoozed_until := none, snooze_count := 0, escalated_at := none,
             created_at := 0, updated_at := 0 },
        rfl, by decide, by decide, by decide, by decide⟩⟩

/-! ### Claim C5 — confirm idempotence -/

/-- C5: confirming an already-`confirmed` event returns success carrying
the original `confirmed_at`, performs no store write at all (so the event
is not mutated and no audit-log entry is appended). -/
theorem confirm_idempotent_spec (db : DB) (uid : Nat) (req : ConfirmRequest)
    (now : Nat) (e : CheckinEvent)
    (hlk : lookupConfirmEvent db uid req = some e)
    (hst : e.status = .confirmed) :
    confirm db uid req now =
      (db, { success := true, event_id := e.event_id, status := .confirmed,
             confirmed_at := e.confirmed_at, was_escalated := false,
             message := some "Already confirmed" }) := by
  simp [confirm, hlk, hst]

/-- Concrete instantiation of `confirm_idempotent_spec`: re-confirming a
confirmed event with a different client timestamp changes nothing. -/
theorem confirm_idempotent_spec_witness :
    (lookupConfirmEvent
        ⟨[], [{ event_id := 10, user_id := 1, scheduled_time := 1000,
                deadline_time := 2000, status := .confirmed,
                confirmed_at := some 1500, snoozed_until := none,
                snooze_count := 0, escalated_at := none,
                created_at := 0, updated_at := 0 }], [], [], [], 11⟩
        1 ⟨some 10, none, some 9999⟩ =
      some { event_id := 10, user_id := 1, scheduled_time := 1000,
             deadline_time := 2000, status := .confirmed,
             confirmed_at := some 1500, snoozed_until := none,
             snooze_count := 0, escalated_at := none,
             created_at := 0, updated_at := 0 }) ∧
    (confirm
        ⟨[], [{ event_id := 10, user_id := 1, scheduled_time := 1000,
                deadline_time := 2000, status := .confirmed,
                confirmed_at := some 1500, snoozed_until := none,
                snooze_count := 0, escalated_at := none,
                created_at := 0, updated_at := 0 }], [], [], [], 11⟩
        1 ⟨some 10, none, some 9999⟩ 5000 =
      (⟨[], [{ event_id := 10, user_id := 1, scheduled_time := 1000,
               deadline_time := 2000, status := .confirmed,
               confirmed_at := some 1500, snoozed_until := none,
               snooze_count := 0, escalated_at := none,
               created_at := 0, updated_at := 0 }], [], [], [], 11⟩,
       { success := true, event_id := 10, status := .confirmed,
         confirmed_at := some 1500, was_escalated := false,
         message := some "Already confirmed" })) :=
  ⟨by decide,
    confirm_idempotent_spec
      ⟨[], [{ event_id := 10, user_id := 1, scheduled_time := 1000,
              deadline_time := 2000, status := .confirmed,
              confirmed_at := some 1500, snoozed_until := none,
              snooze_count := 0, escalated_at := none,
              created_at := 0, updated_at := 0 }], [], [], [], 11⟩
      1 ⟨some 10, none, some 9999⟩ 5000
      { event_id := 10, user_id := 1, scheduled_time := 1000,
        deadline_time := 2000, status := .confirmed,
        confirmed_at := some 1500, snoozed_until := none,
        snooze_count := 0, escalated_at := none,
        created_at := 0, updated_at := 0 }
      (by decide) rfl⟩

/-! ### Claim C6 — not-found asymmetry between snooze and confirm -/

/-- C6: a snooze whose `event_id` matches no event of the user is a hard
`notFound` error with no store change, while a confirm whose lookup finds
no event still succeeds by inserting a fresh already-`confirmed` event and
logging the confirm action. -/
theorem notfound_asymmetry_spec (db : DB) (uid now : Nat) :
    (∀ (req : SnoozeRequest) (eid : Nat), req.event_id = some eid →
      (effectiveSnoozeMinutes req = 5 ∨ effectiveSnoozeMinutes req = 10 ∨
       effectiveSnoozeMinutes req = 15 ∨ effectiveSnoozeMinutes req = 30) →
      findSnoozeEvent db uid eid = none →
      snooze db uid req now = (db, .notFound)) ∧
    (∀ req : ConfirmRequest, lookupConfirmEvent db uid req = none →
      (confirm db uid req now).1.events =
        { event_id := db.nextId, user_id := uid,
          scheduled_time := req.scheduled_at.getD now,
          deadline_time := req.scheduled_at.getD now,
          status := .confirmed, confirmed_at := some (req.confirmed_at.getD now),
          snoozed_until := none, snooze_count := 0, escalated_at := none,
          created_at := now, updated_at := now } :: db.events ∧
      (confirm db uid req now).1.logs =
        { user_id := uid, event_id := some db.nextId,
          event_type := "checkin_confirmed",
          event_time := req.confirmed_at.getD now, result := "ok" } :: db.logs ∧
      (confirm db uid req now).2 =
        { success := true, event_id := db.nextId, status := .confirmed,
          confirmed_at := some (req.confirmed_at.getD now), was_escalated := false,
          message := some "Check-in confirmed (new event created)" }) := by
  constructor
  · intro req eid hreq hm hfind
    simp [snooze, hreq, hfind, hm]
  · intro req hlk
    refine ⟨?_, ?_, ?_⟩ <;> simp [confirm, hlk, appendLog]

/-- Concrete instantiation of `notfound_asymmetry_spec` on an empty store:
snooze of an unknown event is `notFound`; confirm of an unknown event
synthesizes a confirmed record. -/
theorem notfound_asymmetry_spec_witness :
    ((⟨some 10, some 15⟩ : SnoozeRequest).event_id = some 10) ∧
    (effectiveSnoozeMinutes ⟨some 10, some 15⟩ = 15) ∧
    (findSnoozeEvent ⟨[], [], [], [], [], 0⟩ 1 10 = none) ∧
    (snooze ⟨[], [], [], [], [], 0⟩ 1 ⟨some 10, some 15⟩ 5000 =
      (⟨[], [], [], [], [], 0⟩, .notFound)) ∧
    (lookupConfirmEvent ⟨[], [], [], [], [], 0⟩ 1 ⟨none, none, some 4000⟩ = none) ∧
    ((confirm ⟨[], [], [], [], [], 0⟩ 1 ⟨none, none, some 4000⟩ 5000).2 =
      { success := true, event_id := 0, status := .confirmed,
        confirmed_at := some 4000, was_escalated := false,
        message := some "Check-in confirmed (new event created)" }) :=
  ⟨rfl, by decide, by decide,
    ((notfound_asymmetry_spec ⟨[], [], [], [], [], 0⟩ 1 5000).1
      ⟨some 10, some 15⟩ 10 rfl (by decide) (by decide)),
    by decide,
    (((notfound_asymmetry_spec ⟨[], [], [], [], [], 0⟩ 1 5000).2
      ⟨none, none, some 4000⟩ (by decide)).2.2)⟩

/-! ### More lookup lemmas -/

theorem eventOf_cons (b : CheckinEvent) (l : List CheckinEvent) (eid : Nat) :
    eventOf (b :: l) eid = if b.event_id = eid then some b else eventOf l eid := by
  by_cases hb : b.event_id = eid
  · rw [if_pos hb]
    exact List.find?_cons_of_pos _ (by simp [hb])
  · rw [if_neg hb]
    exact List.find?_cons_of_neg _ (by simp [hb])

theorem mem_of_latestPendingEvent (db : DB) (uid : Nat) (e : CheckinEvent)
    (h : latestPendingEvent db uid = some e) : e ∈ db.events := by
  have key : ∀ (l : List CheckinEvent) (acc : Option CheckinEvent),
      l.foldl (fun acc x =>
        match acc with
        | none => some x
        | some a => if a.scheduled_time < x.scheduled_time then some x else acc) acc =
        some e →
      acc = some e ∨ e ∈ l := by
    intro l
    induction l with
    | nil => intro acc h0; exact Or.inl h0
    | cons b t ih =>
      intro acc h0
      rcases ih _ h0 with hstep | hmem
      · match acc with
        | none =>
          simp only at hstep
          exact Or.inr (by simp [← Option.some_inj.mp hstep])
        | some a =>
          simp only at hstep
          by_cases hlt : a.scheduled_time < b.scheduled_time
          · rw [if_pos hlt] at hstep
            exact Or.inr (by simp [← Option.some_inj.mp hstep])
          · rw [if_neg hlt] at hstep
            exact Or.inl hstep
      · exact Or.inr (List.mem_cons_of_mem b hmem)
  rcases key _ none h with h0 | hmem
  · cases h0
  · exact List.mem_of_mem_filter hmem

theorem mem_of_lookupConfirmEvent (db : DB) (uid : Nat) (req : ConfirmRequest)
    (e : CheckinEvent) (h : lookupConfirmEvent db uid req = some e) :
    e ∈ db.events := by
  unfold lookupConfirmEvent at h
  cases hreq : req.event_id with
  | some eid =>
    rw [hreq] at h
    exact List.mem_of_find?_eq_some h
  | none =>
    rw [hreq] at h
    cases hsch : req.scheduled_at with
    | some t =>
      rw [hsch] at h
      exact List.mem_of_find?_eq_some h
    | none =>
      rw [hsch] at h
      exact mem_of_latestPendingEvent db uid e h

/-! ### Claim C10 — client-supplied confirmed_at -/

/-- C10 counterexample: on the already-confirmed idempotent path the
response does NOT carry the client-supplied `confirmed_at`; it carries the
original one, and nothing is stored.  The request carries
`confirmed_at = 200`, the stored event holds `confirmed_at = 100`. -/
theorem confirm_client_timestamp_cex :
    ((confirm
        ⟨[], [{ event_id := 10, user_id := 1, scheduled_time := 1000,
                deadline_time := 2000, status := .confirmed,
                confirmed_at := some 100, snoozed_until := none,
                snooze_count := 0, escalated_at := none,
                created_at := 0, updated_at := 0 }], [], [], [], 11⟩
        1 ⟨some 10, none, some 200⟩ 5000).2.confirmed_at = some 100) ∧
    ((confirm
        ⟨[], [{ event_id := 10, user_id := 1, scheduled_time := 1000,
                deadline_time := 2000, status := .confirmed,
                confirmed_at := some 100, snoozed_until := none,
                snooze_count := 0, escalated_at := none,
                created_at := 0, updated_at := 0 }], [], [], [], 11⟩
        1 ⟨some 10, none, some 200⟩ 5000).2.confirmed_at ≠ some 200) ∧
    ((confirm
        ⟨[], [{ event_id := 10, user_id := 1, scheduled_time := 1000,
                deadline_time := 2000, status := .confirmed,
                confirmed_at := some 100, snoozed_until := none,
                snooze_count := 0, escalated_at := none,
                created_at := 0, updated_at := 0 }], [], [], [], 11⟩
        1 ⟨some 10, none, some 200⟩ 5000).1.events =
      [{ event_id := 10, user_id := 1, scheduled_time := 1000,
         deadline_time := 2000, status := .confirmed,
         confirmed_at := some 100, snoozed_until := none,
         snooze_count := 0, escalated_at := none,
         created_at := 0, updated_at := 0 }]) := by
  refine ⟨?_, ?_, ?_⟩ <;> decide

/-- C10 amended: whenever confirm stores a timestamp (the synthesized-event
path and both update paths), the stored and returned `confirmed_at` is the
client-supplied value when the field is present, and the server clock `now`
when it is absent; on the already-confirmed idempotent path nothing is
stored and the response carries the original `confirmed_at` instead. -/
theorem confirm_client_timestamp_spec (db : DB) (uid : Nat)
    (req : ConfirmRequest) (now : Nat)
    (hnd : (db.events.map (fun e => e.event_id)).Nodup) :
    (∀ s, req.confirmed_at = some s → lookupConfirmEvent db uid req = none →
      (confirm db uid req now).2.confirmed_at = some s ∧
      ∃ ev, (confirm db uid req now).1.events = ev :: db.events ∧
        ev.confirmed_at = some s) ∧
    (∀ s e, req.confirmed_at = some s → lookupConfirmEvent db uid req = some e →
      e.status ≠ .confirmed →
      (confirm db uid req now).2.confirmed_at = some s ∧
      eventOf (confirm db uid req now).1.events e.event_id =
        some (confirmUpdater s now e)) ∧
    (req.confirmed_at = none →
      (lookupConfirmEvent db uid req = none →
        (confirm db uid req now).2.confirmed_at = some now) ∧
      (∀ e, lookupConfirmEvent db uid req = some e → e.status ≠ .confirmed →
        (confirm db uid req now).2.confirmed_at = some now)) ∧
    (∀ e, lookupConfirmEvent db uid req = some e → e.status = .confirmed →
      (confirm db uid req now).2.confirmed_at = e.confirmed_at ∧
      (confirm db uid req now).1 = db) := by
  refine ⟨?_, ?_, ?_, ?_⟩
  · intro s hs hlk
    refine ⟨by simp [confirm, hlk, hs], ?_⟩
    refine ⟨{ event_id := db.nextId, user_id := uid,
              scheduled_time := req.scheduled_at.getD now,
              deadline_time := req.scheduled_at.getD now,
              status := .confirmed, confirmed_at := some s,
              snoozed_until := none, snooze_count := 0, escalated_at := none,
              created_at := now, updated_at := now }, ?_, rfl⟩
    simp [confirm, hlk, hs, appendLog]
  · intro s e hs hlk hst
    have hmem : e ∈ db.events := mem_of_lookupConfirmEvent db uid req e hlk
    have hev : (confirm db uid req now).1.events =
        updateEventById db.events e.event_id (confirmUpdater (req.confirmed_at.getD now) now) := by
      by_cases hal : e.status = .alerted
      · simp [confirm, hlk, hst, hal, appendLog]
      · simp [confirm, hlk, hst, hal, appendLog]
    constructor
    · by_cases hal : e.status = .alerted
      · simp [confirm, hlk, hst, hal, hs]
      · simp [confirm, hlk, hst, hal, hs]
    · rw [hs] at hev
      simp only [Option.getD_some] at hev
      rw [hev, eventOf_updateEventById_self db.events e.event_id
            (confirmUpdater s now) (fun _ => rfl),
          eventOf_of_mem_nodup db.events hnd e hmem]
      rfl
  · intro hs
    constructor
    · intro hlk
      simp [confirm, hlk, hs]
    · intro e hlk hst
      by_cases hal : e.status = .alerted
      · simp [confirm, hlk, hst, hal, hs]
      · simp [confirm, hlk, hst, hal, hs]
  · intro e hlk hst
    exact ⟨by simp [confirm, hlk, hst], by simp [confirm, hlk, hst]⟩

/-- Concrete instantiation of `confirm_client_timestamp_spec`: confirming a
pending event with client timestamp 4200 stores and returns 4200. -/
theorem confirm_client_timestamp_spec_witness :
    ((([{ event_id := 10, user_id := 1, scheduled_time := 1000,
          deadline_time := 2000, status := .pending, confirmed_at := none,
          snoozed_until := none, snooze_count := 0, escalated_at := none,
          created_at := 0, updated_at := 0 }] : List CheckinEvent).map
        (fun e => e.event_id)).Nodup) ∧
    ((⟨some 10, none, some 4200⟩ : ConfirmRequest).confirmed_at = some 4200) ∧
    (lookupConfirmEvent
        ⟨[], [{ event_id := 10, user_id := 1, scheduled_time := 1000,
                deadline_time := 2000, status := .pending, confirmed_at := none,
                snoozed_until := none, snooze_count := 0, escalated_at := none,
                created_at := 0, updated_at := 0 }], [], [], [], 11⟩
        1 ⟨some 10, none, some 4200⟩ =
      some { event_id := 10, user_id := 1, scheduled_time := 1000,
             deadline_time := 2000, status := .pending, confirmed_at := none,
             snoozed_until := none, snooze_count := 0, escalated_at := none,
             created_at := 0, updated_at := 0 }) ∧
    ((confirm
        ⟨[], [{ event_id := 10, user_id := 1, scheduled_time := 1000,
                deadline_time := 2000, status := .pending, confirmed_at := none,
                snoozed_until := none, snooze_count := 0, escalated_at := none,
                created_at := 0, updated_at := 0 }], [], [], [], 11⟩
        1 ⟨some 10, none, some 4200⟩ 5000).2.confirmed_at = some 4200) :=
  ⟨by decide, rfl, by decide,
    ((confirm_client_timestamp_spec
        ⟨[], [{ event_id := 10, user_id := 1, scheduled_time := 1000,
                deadline_time := 2000, status := .pending, confirmed_at := none,
                snoozed_until := none, snooze_count := 0, escalated_at := none,
                created_at := 0, updated_at := 0 }], [], [], [], 11⟩
        1 ⟨some 10, none, some 4200⟩ 5000 (by decide)).2.1 4200
        { event_id := 10, user_id := 1, scheduled_time := 1000,
          deadline_time := 2000, status := .pending, confirmed_at := none,
          snoozed_until := none, snooze_count := 0, escalated_at := none,
          created_at := 0, updated_at := 0 }
        rfl (by decide) (by decide)).1⟩

/-! ### Frame lemmas for the escalation loop -/

theorem insertDelivery_frame (db : DB) (d : AlertDelivery) (db2 : DB)
    (h : insertDelivery db d = some db2) :
    db2.events = db.events ∧ db2.users = db.users ∧ db2.contacts = db.contacts ∧
      db2.logs = db.logs := by
  unfold insertDelivery at h
  by_cases hdup : db.deliveries.any (fun d0 =>
      d0.event_id == d.event_id && d0.contact_id == d.contact_id &&
        d0.channel == d.channel) = true
  · rw [if_pos hdup] at h
    cases h
  · rw [if_neg hdup] at h
    cases h
    exact ⟨rfl, rfl, rfl, rfl⟩

theorem pushPhase_frame (eid now : Nat) (oracle : SendOracle) (db : DB) (c : Contact) :
    (pushPhase eid now oracle db c).events = db.events ∧
    (pushPhase eid now oracle db c).users = db.users ∧
    (pushPhase eid now oracle db c).contacts = db.contacts ∧
    (pushPhase eid now oracle db c).logs = db.logs := by
  unfold pushPhase
  by_cases h1 : (c.has_app && c.apns_token.isSome) = true
  · by_cases h2 : (oracle c.contact_id).pushOk = true
    · simp only [h1, h2, if_true]
      cases hins : insertDelivery db
          (mkDelivery db.nextId eid c.contact_id "push" .sent (some now) now) with
      | none => exact ⟨rfl, rfl, rfl, rfl⟩
      | some db' =>
        simp only [hins]
        simpa using insertDelivery_frame db _ db' hins
    · simp [h1, h2]
  · simp [h1]

theorem smsPhase_frame (eid now : Nat) (oracle : SendOracle) (db1 : DB) (c : Contact) :
    (smsPhase eid now oracle db1 c).1.events = db1.events ∧
    (smsPhase eid now oracle db1 c).1.users = db1.users ∧
    (smsPhase eid now oracle db1 c).1.contacts = db1.contacts ∧
    (smsPhase eid now oracle db1 c).1.logs = db1.logs := by
  unfold smsPhase
  by_cases hd : (oracle c.contact_id).decryptOk = true
  · simp only [hd, Bool.not_true, Bool.false_eq_true, if_false]
    cases hins : insertDelivery db1
        (mkDelivery db1.nextId eid c.contact_id "sms" .pending none now) with
    | none => exact ⟨rfl, rfl, rfl, rfl⟩
    | some db2 =>
      obtain ⟨he, hu, hc, hl⟩ := insertDelivery_frame db1 _ db2 hins
      by_cases hok : (oracle c.contact_id).smsOk = true
      · simp [hins, hok, updateDeliveryById, he, hu, hc, hl]
      · simp [hins, hok, updateDeliveryById, he, hu, hc, hl]
  · simp [smsPhase, hd]

theorem processContact_frame (eid now : Nat) (oracle : SendOracle) (db : DB)
    (c : Contact) :
    (processContact eid now oracle db c).1.events = db.events ∧
    (processContact eid now oracle db c).1.users = db.users ∧
    (processContact eid now oracle db c).1.contacts = db.contacts ∧
    (processContact eid now oracle db c).1.logs = db.logs := by
  unfold processContact
  by_cases hrow : smsRowExists db eid c.contact_id = true
  · simp [hrow]
  · obtain ⟨pe, pu, pc, pl⟩ := pushPhase_frame eid now oracle db c
    obtain ⟨se, su, sc, sl⟩ := smsPhase_frame eid now oracle (pushPhase eid now oracle db c) c
    simp only [hrow, Bool.false_eq_true, if_false]
    exact ⟨se.trans pe, su.trans pu, sc.trans pc, sl.trans pl⟩

theorem runContacts_frame (eid now : Nat) (oracle : SendOracle) :
    ∀ (cs : List Contact) (db : DB),
      (runContacts eid now oracle db cs).1.events = db.events ∧
      (runContacts eid now oracle db cs).1.users = db.users ∧
      (runContacts eid now oracle db cs).1.contacts = db.contacts ∧
      (runContacts eid now oracle db cs).1.logs = db.logs
  | [], db => ⟨rfl, rfl, rfl, rfl⟩
  | c :: cs, db => by
    obtain ⟨pe, pu, pc, pl⟩ := processContact_frame eid now oracle db c
    obtain ⟨re, ru, rc, rl⟩ :=
      runContacts_frame eid now oracle cs (processContact eid now oracle db c).1
    exact ⟨re.trans pe, ru.trans pu, rc.trans pc, rl.trans pl⟩

/-- A successful `triggerEscalation` found the event, and its only effect
on the events table is the unconditional `alerted` rewrite of that event;
users and contacts are untouched. -/
theorem triggerEscalation_some_events (db : DB) (eid now : Nat)
    (oracle : SendOracle) (db' : DB) (r : EscalationSummary)
    (h : triggerEscalation db eid now oracle = some (db', r)) :
    (∃ e, eventOf db.events eid = some e) ∧
    db'.events = updateEventById db.events eid (escalateUpdater now) ∧
    db'.users = db.users ∧ db'.contacts = db.contacts := by
  unfold triggerEscalation at h
  cases hfind : db.events.find? (fun e => e.event_id == eid) with
  | none => rw [hfind] at h; cases h
  | some e =>
    simp only [hfind] at h
    cases huser : userOf db e.user_id with
    | none => simp only [huser] at h; cases h
    | some u =>
      simp only [huser] at h
      refine ⟨⟨e, hfind⟩, ?_⟩
      by_cases hsms : u.sms_alerts_enabled = true
      · simp only [hsms, Bool.not_true, Bool.false_eq_true, if_false] at h
        by_cases hemp : (contactsOf
            (appendLog { db with events := updateEventById db.events eid (escalateUpdater now) }
              { user_id := e.user_id, event_id := some eid,
                event_type := "checkin_escalated", event_time := now,
                result := "missed" }) e.user_id).isEmpty = true
        · rw [if_pos hemp] at h
          cases h
          exact ⟨rfl, rfl, rfl⟩
        · rw [if_neg hemp] at h
          cases h
          obtain ⟨re, ru, rc, _⟩ := runContacts_frame eid now oracle _ _
          exact ⟨re, ru, rc⟩
      · have hsms' : u.sms_alerts_enabled = false := by
          cases hb : u.sms_alerts_enabled
          · rfl
          · exact absurd hb hsms
        simp only [hsms', Bool.not_false, if_true] at h
        cases h
        exact ⟨rfl, rfl, rfl⟩

/-- Folding escalations whose target ids all differ from `eid` preserves
what the lookup of `eid` finds. -/
theorem foldl_trigger_preserves (now : Nat) (oracle : SendOracle) (eid : Nat)
    (e : CheckinEvent) :
    ∀ (L : List CheckinEvent) (db0 : DB), (∀ x ∈ L, x.event_id ≠ eid) →
      eventOf db0.events eid = some e →
      eventOf ((L.foldl (fun db' x =>
          match triggerEscalation db' x.event_id now oracle with
          | some p => p.1
          | none => db') db0)).events eid = some e
  | [], _, _, h0 => h0
  | x :: L, db0, hids, h0 => by
    have hx : x.event_id ≠ eid := hids x (List.mem_cons_self x L)
    have hstep : eventOf (match triggerEscalation db0 x.event_id now oracle with
        | some p => p.1 | none => db0).events eid = some e := by
      cases htr : triggerEscalation db0 x.event_id now oracle with
      | none => simpa [htr] using h0
      | some p =>
        obtain ⟨_, hev, _, _⟩ :=
          triggerEscalation_some_events db0 x.event_id now oracle p.1 p.2 (by rw [htr])
        simp only [htr]
        rw [hev, eventOf_updateEventById_ne db0.events x.event_id
              (escalateUpdater now) (fun _ => rfl) eid (fun hh => hx hh.symm)]
        exact h0
    simpa [List.foldl_cons] using
      foldl_trigger_preserves now oracle eid e L _
        (fun y hy => hids y (List.mem_cons_of_mem x hy)) hstep

theorem isOverdue_status (db : DB) (now : Nat) (e : CheckinEvent)
    (h : isOverdue db now e = true) :
    e.status = .pending ∨ e.status = .snoozed := by
  unfold isOverdue at h
  simp only [Bool.and_eq_true] at h
  rcases h with ⟨⟨h1, _⟩, _⟩
  simpa using h1

theorem isOverdue_active (db : DB) (now : Nat) (e : CheckinEvent)
    (h : isOverdue db now e = true) :
    ∃ u, userOf db e.user_id = some u ∧ isActiveUser now u = true := by
  unfold isOverdue at h
  simp only [Bool.and_eq_true] at h
  rcases h with ⟨_, h3⟩
  cases huser : userOf db e.user_id with
  | none => rw [huser] at h3; cases h3
  | some u => rw [huser] at h3; exact ⟨u, rfl, h3⟩

/-! ### Case analyses of the two user actions -/

theorem snooze_events_cases (db : DB) (uid : Nat) (req : SnoozeRequest) (now : Nat) :
    (snooze db uid req now).1 = db ∨
    ∃ eid e, req.event_id = some eid ∧ findSnoozeEvent db uid eid = some e ∧
      (e.status = .pending ∨ e.status = .snoozed) ∧
      (snooze db uid req now).1.events =
        updateEventById db.events e.event_id
          (snoozeUpdater (e.deadline_time + effectiveSnoozeMinutes req * msPerMinute) now) := by
  cases hreq : req.event_id with
  | none => left; simp [snooze, hreq]
  | some eid =>
    by_cases hm : effectiveSnoozeMinutes req = 5 ∨ effectiveSnoozeMinutes req = 10 ∨
        effectiveSnoozeMinutes req = 15 ∨ effectiveSnoozeMinutes req = 30
    · cases hfind : findSnoozeEvent db uid eid with
      | none => left; simp [snooze, hreq, hfind, hm]
      | some e =>
        by_cases hc : 1 ≤ e.snooze_count
        · left; simp [snooze, hreq, hfind, hm, hc]
        · by_cases hst : e.status = .pending ∨ e.status = .snoozed
          · right
            exact ⟨eid, e, rfl, hfind, hst,
              by simp [snooze, hreq, hfind, hm, hc, hst, appendLog]⟩
          · left; simp [snooze, hreq, hfind, hm, hc, hst]
    · left; simp [snooze, hreq, hm]

theorem confirm_events_cases (db : DB) (uid : Nat) (req : ConfirmRequest) (now : Nat) :
    (confirm db uid req now).1.events = db.events ∨
    (∃ ev, (confirm db uid req now).1.events = ev :: db.events ∧
      ev.status = .confirmed) ∨
    (∃ e, lookupConfirmEvent db uid req = some e ∧
      (confirm db uid req now).1.events =
        updateEventById db.events e.event_id
          (confirmUpdater (req.confirmed_at.getD now) now)) := by
  cases hlk : lookupConfirmEvent db uid req with
  | none =>
    right; left
    refine ⟨{ event_id := db.nextId, user_id := uid,
              scheduled_time := req.scheduled_at.getD now,
              deadline_time := req.scheduled_at.getD now,
              status := .confirmed, confirmed_at := some (req.confirmed_at.getD now),
              snoozed_until := none, snooze_count := 0, escalated_at := none,
              created_at := now, updated_at := now }, ?_, rfl⟩
    simp [confirm, hlk, appendLog]
  | some e =>
    by_cases hconf : e.status = .confirmed
    · left; simp [confirm, hlk, hconf]
    · right; right
      refine ⟨e, rfl, ?_⟩
      by_cases hal : e.status = .alerted
      · simp [confirm, hlk, hconf, hal, appendLog]
      · simp [confirm, hlk, hconf, hal, appendLog]

/-! ### Claim C1 — the check-in state machine -/

/-- C1 counterexample: `confirmed` and `paused` are not terminal.  A
`paused` event confirmed by id moves to `confirmed`, and a direct
`triggerEscalation` on a `confirmed` event (reachable via the debug
trigger-escalation route) moves it to `alerted` — the source never checks
the event's current status before either write. -/
theorem state_machine_cex :
    (statusOf [{ event_id := 10, user_id := 1, scheduled_time := 1000,
                 deadline_time := 2000, status := .paused, confirmed_at := none,
                 snoozed_until := none, snooze_count := 0, escalated_at := none,
                 created_at := 0, updated_at := 0 },
               { event_id := 11, user_id := 1, scheduled_time := 1000,
                 deadline_time := 2000, status := .confirmed,
                 confirmed_at := some 100, snoozed_until := none,
                 snooze_count := 0, escalated_at := none,
                 created_at := 0, updated_at := 0 }] 10 = some .paused) ∧
    (statusOf (confirm
        ⟨[⟨1, [], 10, false, none, none, 0⟩],
         [{ event_id := 10, user_id := 1, scheduled_time := 1000,
            deadline_time := 2000, status := .paused, confirmed_at := none,
            snoozed_until := none, snooze_count := 0, escalated_at := none,
            created_at := 0, updated_at := 0 },
          { event_id := 11, user_id := 1, scheduled_time := 1000,
            deadline_time := 2000, status := .confirmed,
            confirmed_at := some 100, snoozed_until := none,
            snooze_count := 0, escalated_at := none,
            created_at := 0, updated_at := 0 }], [], [], [], 20⟩
        1 ⟨some 10, none, none⟩ 5000).1.events 10 = some .confirmed) ∧
    ((triggerEscalation
        ⟨[⟨1, [], 10, false, none, none, 0⟩],
         [{ event_id := 10, user_id := 1, scheduled_time := 1000,
            deadline_time := 2000, status := .paused, confirmed_at := none,
            snoozed_until := none, snooze_count := 0, escalated_at := none,
            created_at := 0, updated_at := 0 },
          { event_id := 11, user_id := 1, scheduled_time := 1000,
            deadline_time := 2000, status := .confirmed,
            confirmed_at := some 100, snoozed_until := none,
            snooze_count := 0, escalated_at := none,
            created_at := 0, updated_at := 0 }], [], [], [], 20⟩
        11 5000 (fun _ => ⟨true, true, true, "", "", ""⟩)).map
          (fun p => statusOf p.1.events 11) = some (some .alerted)) := by
  refine ⟨?_, ?_, ?_⟩ <;> decide

/-- C1 amended: each operation's status behaviour.  Snooze changes a
status only from `pending`/`snoozed` to `snoozed`; confirm changes a
status only to `confirmed` (this includes reviving a `paused` event found
by id — `paused` is not terminal under confirm); a late confirm of an
`alerted` event flags `was_escalated = true`; the escalation scan
(`handleEscalations`) never touches events outside `pending`/`snoozed`,
but a direct `triggerEscalation` sets any found event to `alerted`
unconditionally (so `confirmed` is terminal only for snooze and the
escalation scan, not for a direct trigger). -/
theorem state_machine_spec (db : DB) (uid now : Nat)
    (hnd : (db.events.map (fun e => e.event_id)).Nodup) :
    (∀ (req : SnoozeRequest) (eid : Nat) (st st' : CheckinStatus),
      statusOf db.events eid = some st →
      statusOf (snooze db uid req now).1.events eid = some st' →
      st' = st ∨ ((st = .pending ∨ st = .snoozed) ∧ st' = .snoozed)) ∧
    (∀ (req : ConfirmRequest) (eid : Nat) (st st' : CheckinStatus),
      statusOf db.events eid = some st →
      statusOf (confirm db uid req now).1.events eid = some st' →
      st' = st ∨ st' = .confirmed) ∧
    (∀ (req : ConfirmRequest) (e : CheckinEvent),
      lookupConfirmEvent db uid req = some e → e.status = .alerted →
      (confirm db uid req now).2.was_escalated = true) ∧
    (∀ (oracle : SendOracle) (eid : Nat) (e : CheckinEvent),
      eventOf db.events eid = some e → e.status ≠ .pending → e.status ≠ .snoozed →
      eventOf (handleEscalations db now oracle).events eid = some e) ∧
    (∀ (oracle : SendOracle) (eid : Nat) (db' : DB) (r : EscalationSummary),
      triggerEscalation db eid now oracle = some (db', r) →
      statusOf db'.events eid = some .alerted) := by
  refine ⟨?_, ?_, ?_, ?_, ?_⟩
  · intro req eid st st' hst hst'
    rcases snooze_events_cases db uid req now with hsame | ⟨eid0, e0, _, hfind, hst0, hev⟩
    · rw [hsame, hst] at hst'
      exact Or.inl (Option.some_inj.mp hst').symm
    · have hmem : e0 ∈ db.events := List.mem_of_find?_eq_some hfind
      by_cases heq : eid = e0.event_id
      · subst heq
        rw [statusOf, hev,
            eventOf_updateEventById_self db.events e0.event_id
              (snoozeUpdater (e0.deadline_time + effectiveSnoozeMinutes req * msPerMinute) now)
              (fun _ => rfl),
            eventOf_of_mem_nodup db.events hnd e0 hmem] at hst'
        have hst0' : st = e0.status := by
          rw [statusOf, eventOf_of_mem_nodup db.events hnd e0 hmem] at hst
          exact (Option.some_inj.mp hst).symm
        refine Or.inr ⟨by rw [hst0']; exact hst0, ?_⟩
        simpa [snoozeUpdater] using (Option.some_inj.mp hst').symm
      · rw [statusOf, hev,
            eventOf_updateEventById_ne db.events e0.event_id
              (snoozeUpdater (e0.deadline_time + effectiveSnoozeMinutes req * msPerMinute) now)
              (fun _ => rfl) eid heq,
            ← statusOf, hst] at hst'
        exact Or.inl (Option.some_inj.mp hst').symm
  · intro req eid st st' hst hst'
    rcases confirm_events_cases db uid req now with hsame | ⟨ev, hev, hconf⟩ |
      ⟨e, _, hev⟩
    · rw [statusOf, hsame, ← statusOf, hst] at hst'
      exact Or.inl (Option.some_inj.mp hst').symm
    · rw [statusOf, hev, eventOf_cons] at hst'
      by_cases hce : ev.event_id = eid
      · rw [if_pos hce] at hst'
        have : st' = ev.status := by simpa using (Option.some_inj.mp hst').symm
        exact Or.inr (this.trans hconf)
      · rw [if_neg hce, ← statusOf, hst] at hst'
        exact Or.inl (Option.some_inj.mp hst').symm
    · by_cases heq : eid = e.event_id
      · subst heq
        rw [statusOf, hev,
            eventOf_updateEventById_self db.events e.event_id
              (confirmUpdater (req.confirmed_at.getD now) now) (fun _ => rfl)] at hst'
        cases hevt : eventOf db.events e.event_id with
        | none => rw [hevt] at hst'; cases hst'
        | some e1 =>
          rw [hevt] at hst'
          refine Or.inr ?_
          simpa [confirmUpdater] using (Option.some_inj.mp hst').symm
      · rw [statusOf, hev,
            eventOf_updateEventById_ne db.events e.event_id
              (confirmUpdater (req.confirmed_at.getD now) now) (fun _ => rfl) eid heq,
            ← statusOf, hst] at hst'
        exact Or.inl (Option.some_inj.mp hst').symm
  · intro req e hlk hal
    have hconf : ¬ e.status = .confirmed := by rw [hal]; intro hh; cases hh
    simp [confirm, hlk, hal, hconf]
  · intro oracle eid e hev hp hs
    have hmem : e ∈ db.events := List.mem_of_find?_eq_some (by simpa [eventOf] using hev)
    have heid : e.event_id = eid := by
      have := List.find?_some (by simpa [eventOf] using hev)
      simpa using this
    have htargets : ∀ x ∈ db.events.filter (isOverdue db now), x.event_id ≠ eid := by
      intro x hx hxe
      have hxmem := List.mem_of_mem_filter hx
      have hxover : isOverdue db now x = true := List.of_mem_filter hx
      have hxeq : x = e :=
        List.inj_on_of_nodup_map hnd hxmem hmem (by rw [hxe, heid])
      rcases isOverdue_status db now x hxover with h1 | h1 <;> rw [hxeq] at h1
      · exact hp h1
      · exact hs h1
    simpa [handleEscalations] using
      foldl_trigger_preserves now oracle eid e
        (db.events.filter (isOverdue db now)) db htargets hev
  · intro oracle eid db' r h
    obtain ⟨⟨e, hfind⟩, hev, _, _⟩ :=
      triggerEscalation_some_events db eid now oracle db' r h
    rw [statusOf, hev,
        eventOf_updateEventById_self db.events eid (escalateUpdater now) (fun _ => rfl),
        hfind]
    rfl

/-- Concrete instantiation of `state_machine_spec`: snoozing a pending
event is a legal `pending → snoozed` transition. -/
theorem state_machine_spec_witness :
    ((([{ event_id := 10, user_id := 1, scheduled_time := 1000,
          deadline_time := 2000, status := .pending, confirmed_at := none,
          snoozed_until := none, snooze_count := 0, escalated_at := none,
          created_at := 0, updated_at := 0 }] : List CheckinEvent).map
        (fun e => e.event_id)).Nodup) ∧
    (statusOf [{ event_id := 10, user_id := 1, scheduled_time := 1000,
                 deadline_time := 2000, status := .pending, confirmed_at := none,
                 snoozed_until := none, snooze_count := 0, escalated_at := none,
                 created_at := 0, updated_at := 0 }] 10 = some .pending) ∧
    (statusOf (snooze
        ⟨[], [{ event_id := 10, user_id := 1, scheduled_time := 1000,
                deadline_time := 2000, status := .pending, confirmed_at := none,
                snoozed_until := none, snooze_count := 0, escalated_at := none,
                created_at := 0, updated_at := 0 }], [], [], [], 11⟩
        1 ⟨some 10, some 15⟩ 5000).1.events 10 = some .snoozed) ∧
    (CheckinStatus.snoozed = .pending ∨
      ((CheckinStatus.pending = .pending ∨ CheckinStatus.pending = .snoozed) ∧
        CheckinStatus.snoozed = .snoozed)) :=
  ⟨by decide, by decide, by decide,
    (state_machine_spec
        ⟨[], [{ event_id := 10, user_id := 1, scheduled_time := 1000,
                deadline_time := 2000, status := .pending, confirmed_at := none,
                snoozed_until := none, snooze_count := 0, escalated_at := none,
                created_at := 0, updated_at := 0 }], [], [], [], 11⟩
        1 5000 (by decide)).1
      ⟨some 10, some 15⟩ 10 .pending .snoozed (by decide) (by decide)⟩

/-! ### Scheduler fold lemmas -/

/-- One slot pass only ever adds events belonging to the processed user. -/
theorem scheduleUserTime_superset (now : Nat) (u : User) (db : DB) (tm : Nat × Nat) :
    ∀ x ∈ (scheduleUserTime now u db tm).events,
      x ∈ db.events ∨ x.user_id = u.user_id := by
  intro x hx
  unfold scheduleUserTime at hx
  by_cases hcond : (isTimeMatch (hourOfDay now) (minuteOfHour now) tm.1 tm.2 &&
      !hasEventForSlot db u.user_id now tm.1 tm.2) = true
  · rw [if_pos hcond] at hx
    unfold createPendingEvent at hx
    by_cases hpast : slotTime now tm.1 tm.2 < now
    · rw [if_pos hpast] at hx
      exact Or.inl hx
    · rw [if_neg hpast] at hx
      simp only [appendLog] at hx
      rcases List.mem_cons.mp hx with rfl | hx'
      · exact Or.inr rfl
      · exact Or.inl hx'
  · rw [if_neg hcond] at hx
    exact Or.inl hx

/-- A whole per-user pass only ever adds events belonging to that user. -/
theorem processUser_superset (now : Nat) (u : User) :
    ∀ (ts : List (Nat × Nat)) (db : DB),
      ∀ x ∈ (ts.foldl (scheduleUserTime now u) db).events,
        x ∈ db.events ∨ x.user_id = u.user_id
  | [], _, _, hx => Or.inl hx
  | tm :: ts, db, x, hx => by
    rcases processUser_superset now u ts (scheduleUserTime now u db tm) x
        (by simpa [List.foldl_cons] using hx) with h1 | h1
    · exact scheduleUserTime_superset now u db tm x h1
    · exact Or.inr h1

/-- Folding per-user passes over users other than `U` never adds events
belonging to `U`. -/
theorem foldl_processUser_preserves (now : Nat) (uU : Nat) :
    ∀ (us : List User) (db0 : DB), (∀ v ∈ us, v.user_id ≠ uU) →
      ∀ x ∈ (us.foldl (processUser now) db0).events, x.user_id = uU → x ∈ db0.events
  | [], _, _, _, hx, _ => hx
  | v :: us, db0, hids, x, hx, hxu => by
    have hrest := foldl_processUser_preserves now uU us (processUser now db0 v)
      (fun w hw => hids w (List.mem_cons_of_mem v hw)) x
      (by simpa [List.foldl_cons] using hx) hxu
    rcases processUser_superset now v v.checkin_times db0 x hrest with h1 | h1
    · exact h1
    · exact absurd (h1.symm.trans hxu) (hids v (List.mem_cons_self v us))

/-! ### Claim C9 — pause suppresses both phases -/

/-- C9: for a user whose `pause_until` lies in the future, the scheduler
tick creates no event for that user, the escalation tick leaves every one
of that user's events exactly as it was, and setting a pause immediately
flips each of the user's `pending`/`snoozed` events to `paused` (leaving
events in other statuses untouched). -/
theorem pause_suppression_spec (db : DB) (now : Nat) (u : User) (t : Nat)
    (hndU : (db.users.map (fun v => v.user_id)).Nodup)
    (hndE : (db.events.map (fun e => e.event_id)).Nodup)
    (hu : u ∈ db.users) (hp : u.pause_until = some t) (hfut : now < t) :
    (∀ x ∈ (handleScheduledCheckins db now).events,
      x.user_id = u.user_id → x ∈ db.events) ∧
    (∀ (oracle : SendOracle), ∀ ev ∈ db.events, ev.user_id = u.user_id →
      eventOf (handleEscalations db now oracle).events ev.event_id = some ev) ∧
    (∀ (t0 now0 : Nat), now0 < t0 →
      ((setPause db u.user_id (some t0) now0).2 = .pausedOk t0) ∧
      (∀ ev ∈ db.events, ev.user_id = u.user_id →
        (ev.status = .pending ∨ ev.status = .snoozed) →
        { ev with status := .paused, updated_at := now0 } ∈
          (setPause db u.user_id (some t0) now0).1.events) ∧
      (∀ ev ∈ db.events, ev.status ≠ .pending → ev.status ≠ .snoozed →
        ev ∈ (setPause db u.user_id (some t0) now0).1.events)) := by
  have hinact : isActiveUser now u = false := by
    rw [isActiveUser, hp]
    exact decide_eq_false (by omega)
  refine ⟨?_, ?_, ?_⟩
  · intro x hx hxu
    have htarget : ∀ v ∈ db.users.filter (isActiveUser now), v.user_id ≠ u.user_id := by
      intro v hv hveq
      have hvmem := List.mem_of_mem_filter hv
      have hvact : isActiveUser now v = true := List.of_mem_filter hv
      have : v = u := List.inj_on_of_nodup_map hndU hvmem hu hveq
      rw [this, hinact] at hvact
      cases hvact
    exact foldl_processUser_preserves now u.user_id
      (db.users.filter (isActiveUser now)) db htarget x
      (by simpa [handleScheduledCheckins] using hx) hxu
  · intro oracle ev hev hevu
    have hfindev : eventOf db.events ev.event_id = some ev :=
      eventOf_of_mem_nodup db.events hndE ev hev
    have htargets : ∀ x ∈ db.events.filter (isOverdue db now),
        x.event_id ≠ ev.event_id := by
      intro x hx hxe
      have hxmem := List.mem_of_mem_filter hx
      have hxover : isOverdue db now x = true := List.of_mem_filter hx
      have hxeq : x = ev := List.inj_on_of_nodup_map hndE hxmem hev hxe
      obtain ⟨usr, husr, hact⟩ := isOverdue_active db now x hxover
      rw [hxeq, hevu] at husr
      rw [userOf_of_mem_nodup db hndU u hu] at husr
      rw [← Option.some_inj.mp husr, hinact] at hact
      cases hact
    simpa [handleEscalations] using
      foldl_trigger_preserves now oracle ev.event_id ev
        (db.events.filter (isOverdue db now)) db htargets hfindev
  · intro t0 now0 hfut0
    have hv : ¬ t0 ≤ now0 := by omega
    refine ⟨by simp [setPause, hv], ?_, ?_⟩
    · intro ev hev hevu hst
      have himg : (if ev.user_id = u.user_id ∧ (ev.status = .pending ∨ ev.status = .snoozed)
          then { ev with status := .paused, updated_at := now0 } else ev) ∈
          db.events.map (fun e : CheckinEvent =>
            if e.user_id = u.user_id ∧ (e.status = .pending ∨ e.status = .snoozed)
            then { e with status := .paused, updated_at := now0 } else e) :=
        List.mem_map_of_mem _ hev
      rw [if_pos ⟨hevu, hst⟩] at himg
      simpa [setPause, hv, appendLog] using himg
    · intro ev hev hp1 hs1
      have himg : (if ev.user_id = u.user_id ∧ (ev.status = .pending ∨ ev.status = .snoozed)
          then { ev with status := .paused, updated_at := now0 } else ev) ∈
          db.events.map (fun e : CheckinEvent =>
            if e.user_id = u.user_id ∧ (e.status = .pending ∨ e.status = .snoozed)
            then { e with status := .paused, updated_at := now0 } else e) :=
        List.mem_map_of_mem _ hev
      rw [if_neg (by rintro ⟨-, h | h⟩; exact hp1 h; exact hs1 h)] at himg
      simpa [setPause, hv, appendLog] using himg

/-- Concrete instantiation of `pause_suppression_spec`: one paused user
with one pending overdue event; neither tick touches it, and setting the
pause flips it to `paused`. -/
theorem pause_suppression_spec_witness :
    ((([⟨1, [(9, 0)], 10, true, some 9000, none, 0⟩] : List User).map
        (fun v => v.user_id)).Nodup) ∧
    ((([{ event_id := 10, user_id := 1, scheduled_time := 1000,
          deadline_time := 2000, status := .pending, confirmed_at := none,
          snoozed_until := none, snooze_count := 0, escalated_at := none,
          created_at := 0, updated_at := 0 }] : List CheckinEvent).map
        (fun e => e.event_id)).Nodup) ∧
    ((⟨1, [(9, 0)], 10, true, some 9000, none, 0⟩ : User) ∈
      ([⟨1, [(9, 0)], 10, true, some 9000, none, 0⟩] : List User)) ∧
    ((⟨1, [(9, 0)], 10, true, some 9000, none, 0⟩ : User).pause_until = some 9000) ∧
    (5000 < 9000) ∧
    (∀ x ∈ (handleScheduledCheckins
        ⟨[⟨1, [(9, 0)], 10, true, some 9000, none, 0⟩],
         [{ event_id := 10, user_id := 1, scheduled_time := 1000,
            deadline_time := 2000, status := .pending, confirmed_at := none,
            snoozed_until := none, snooze_count := 0, escalated_at := none,
            created_at := 0, updated_at := 0 }], [], [], [], 11⟩ 5000).events,
      x.user_id = 1 →
      x ∈ ([{ event_id := 10, user_id := 1, scheduled_time := 1000,
              deadline_time := 2000, status := .pending, confirmed_at := none,
              snoozed_until := none, snooze_count := 0, escalated_at := none,
              created_at := 0, updated_at := 0 }] : List CheckinEvent)) :=
  ⟨by decide, by decide, by decide, rfl, by decide,
    (pause_suppression_spec
        ⟨[⟨1, [(9, 0)], 10, true, some 9000, none, 0⟩],
         [{ event_id := 10, user_id := 1, scheduled_time := 1000,
            deadline_time := 2000, status := .pending, confirmed_at := none,
            snoozed_until := none, snooze_count := 0, escalated_at := none,
            created_at := 0, updated_at := 0 }], [], [], [], 11⟩
        5000 ⟨1, [(9, 0)], 10, true, some 9000, none, 0⟩ 9000
        (by decide) (by decide) (by decide) rfl (by decide)).1⟩

/-! ### Per-contact delivery lemmas -/

theorem any_ext {α : Type} (p q : α → Bool) (h : ∀ a, p a = q a) :
    ∀ l : List α, l.any p = l.any q
  | [] => rfl
  | a :: l => by rw [List.any_cons, List.any_cons, h a, any_ext p q h l]

theorem insertDelivery_some (db : DB) (d : AlertDelivery) (db2 : DB)
    (h : insertDelivery db d = some db2) :
    db2 = { db with deliveries := d :: db.deliveries } := by
  unfold insertDelivery at h
  by_cases hdup : db.deliveries.any (fun d0 =>
      d0.event_id == d.event_id && d0.contact_id == d.contact_id &&
        d0.channel == d.channel) = true
  · rw [if_pos hdup] at h; cases h
  · rw [if_neg hdup] at h; exact (Option.some_inj.mp h).symm

/-- Rewriting a delivery row in place never changes the sms-row existence
check, because the update functions keep the (event, contact, channel)
key. -/
theorem smsRowExists_updateDeliveryById (db : DB) (did : Nat)
    (f : AlertDelivery → AlertDelivery)
    (hf : ∀ d, (f d).event_id = d.event_id ∧ (f d).contact_id = d.contact_id ∧
      (f d).channel = d.channel) (eid cid : Nat) :
    smsRowExists (updateDeliveryById db did f) eid cid = smsRowExists db eid cid := by
  unfold smsRowExists updateDeliveryById
  rw [List.any_map]
  refine any_ext _ _ (fun d => ?_) db.deliveries
  by_cases hd : d.delivery_id = did
  · simp only [Function.comp, if_pos hd, (hf d).1, (hf d).2.1, (hf d).2.2]
  · simp only [Function.comp, if_neg hd]

/-- The push block can only add a `push` row, so it never changes the
sms-row existence check. -/
theorem smsRowExists_pushPhase (eid now : Nat) (oracle : SendOracle) (db : DB)
    (c : Contact) (eid' cid : Nat) :
    smsRowExists (pushPhase eid now oracle db c) eid' cid =
      smsRowExists db eid' cid := by
  unfold pushPhase
  by_cases h1 : (c.has_app && c.apns_token.isSome) = true
  · by_cases h2 : (oracle c.contact_id).pushOk = true
    · simp only [h1, h2, if_true]
      cases hins : insertDelivery db
          (mkDelivery db.nextId eid c.contact_id "push" .sent (some now) now) with
      | none => rfl
      | some db' =>
        rw [insertDelivery_some db _ db' hins]
        simp [smsRowExists, List.any_cons, mkDelivery]
    · simp [h1, h2]
  · simp [h1]

/-- Processing one contact never changes the sms-row existence check for a
different contact. -/
theorem smsRowExists_processContact_ne (eid now : Nat) (oracle : SendOracle)
    (db : DB) (c : Contact) (cid : Nat) (hne : cid ≠ c.contact_id) :
    smsRowExists (processContact eid now oracle db c).1 eid cid =
      smsRowExists db eid cid := by
  have hcc : (c.contact_id == cid) = false := by
    simp only [beq_eq_false_iff_ne, ne_eq]
    exact fun hh => hne hh.symm
  unfold processContact
  by_cases hrow : smsRowExists db eid c.contact_id = true
  · simp [hrow]
  · simp only [hrow, Bool.false_eq_true, if_false]
    have hpush := smsRowExists_pushPhase eid now oracle db c eid cid
    unfold smsPhase
    by_cases hd : (oracle c.contact_id).decryptOk = true
    · simp only [hd, Bool.not_true, Bool.false_eq_true, if_false]
      cases hins : insertDelivery (pushPhase eid now oracle db c)
          (mkDelivery (pushPhase eid now oracle db c).nextId eid c.contact_id "sms"
            .pending none now) with
      | none => exact hpush
      | some db2 =>
        have hdb2 := insertDelivery_some _ _ _ hins
        have hcons : smsRowExists { db2 with nextId := db2.nextId + 1 } eid cid =
            smsRowExists (pushPhase eid now oracle db c) eid cid := by
          rw [hdb2]
          unfold smsRowExists
          simp only [List.any_cons]
          simp [mkDelivery, hcc]
        by_cases hok : (oracle c.contact_id).smsOk = true
        · simp only [hok, if_true]
          rw [smsRowExists_updateDeliveryById]
          · exact hcons.trans hpush
          · exact fun d => ⟨rfl, rfl, rfl⟩
        · simp only [hok, Bool.false_eq_true, if_false]
          rw [smsRowExists_updateDeliveryById]
          · exact hcons.trans hpush
          · exact fun d => ⟨rfl, rfl, rfl⟩
    · simp only [hd]
      exact hpush

/-- An existing sms row short-circuits the contact to an
`already_exists` report with no store change at all. -/
theorem processContact_exists (eid now : Nat) (oracle : SendOracle) (db : DB)
    (c : Contact) (h : smsRowExists db eid c.contact_id = true) :
    processContact eid now oracle db c =
      (db, { contact_id := c.contact_id, status := "already_exists", error := none }) := by
  unfold processContact
  rw [if_pos h]

/-- With no existing sms row, the recorded result for a contact is a pure
function of that contact's own external outcomes. -/
theorem processContact_new (eid now : Nat) (oracle : SendOracle) (db : DB)
    (c : Contact) (h : smsRowExists db eid c.contact_id = false) :
    (processContact eid now oracle db c).2 =
      { contact_id := c.contact_id,
        status := expectedContactStatus (oracle c.contact_id),
        error := expectedContactError (oracle c.contact_id) } := by
  unfold processContact
  simp only [h, Bool.false_eq_true, if_false]
  have hpush : smsRowExists (pushPhase eid now oracle db c) eid c.contact_id = false :=
    (smsRowExists_pushPhase eid now oracle db c eid c.contact_id).trans h
  unfold smsPhase
  by_cases hd : (oracle c.contact_id).decryptOk = true
  · simp only [hd, Bool.not_true, Bool.false_eq_true, if_false]
    have hnodup : ((pushPhase eid now oracle db c).deliveries.any (fun d0 =>
        d0.event_id == (mkDelivery (pushPhase eid now oracle db c).nextId eid
            c.contact_id "sms" .pending none now).event_id &&
          d0.contact_id == (mkDelivery (pushPhase eid now oracle db c).nextId eid
            c.contact_id "sms" .pending none now).contact_id &&
          d0.channel == (mkDelivery (pushPhase eid now oracle db c).nextId eid
            c.contact_id "sms" .pending none now).channel)) = false := hpush
    have hins : insertDelivery (pushPhase eid now oracle db c)
        (mkDelivery (pushPhase eid now oracle db c).nextId eid c.contact_id "sms"
          .pending none now) =
        some { (pushPhase eid now oracle db c) with
               deliveries := mkDelivery (pushPhase eid now oracle db c).nextId eid
                   c.contact_id "sms" .pending none now ::
                 (pushPhase eid now oracle db c).deliveries } := by
      unfold insertDelivery
      rw [if_neg (by rw [hnodup]; exact Bool.false_ne_true)]
    rw [hins]
    by_cases hok : (oracle c.contact_id).smsOk = true
    · simp [hok, expectedContactStatus, expectedContactError, hd]
    · simp [hok, expectedContactStatus, expectedContactError, hd]
  · simp [hd, expectedContactStatus, expectedContactError]

theorem processContact_contact_id (eid now : Nat) (oracle : SendOracle) (db : DB)
    (c : Contact) :
    (processContact eid now oracle db c).2.contact_id = c.contact_id := by
  unfold processContact
  by_cases hrow : smsRowExists db eid c.contact_id = true
  · rw [if_pos hrow]
  · rw [if_neg hrow]
    unfold smsPhase
    by_cases hd : (oracle c.contact_id).decryptOk = true
    · simp only [hd, Bool.not_true, Bool.false_eq_true, if_false]
      cases hins : insertDelivery (pushPhase eid now oracle db c)
          (mkDelivery (pushPhase eid now oracle db c).nextId eid c.contact_id "sms"
            .pending none now) with
      | none => rfl
      | some db2 =>
        by_cases hok : (oracle c.contact_id).smsOk = true
        · simp [hok]
        · simp [hok]
    · simp [hd]

/-! ### Contact loop lemmas -/

/-- The escalation loop returns exactly one result per contact, in order. -/
theorem runContacts_map_ids (eid now : Nat) (oracle : SendOracle) :
    ∀ (cs : List Contact) (db : DB),
      (runContacts eid now oracle db cs).2.map (fun d => d.contact_id) =
        cs.map (fun c => c.contact_id)
  | [], _ => rfl
  | c :: cs, db => by
    show ((processContact eid now oracle db c).2 ::
        (runContacts eid now oracle (processContact eid now oracle db c).1 cs).2).map
          (fun d => d.contact_id) = _
    rw [List.map_cons, List.map_cons, processContact_contact_id,
      runContacts_map_ids eid now oracle cs (processContact eid now oracle db c).1]

/-- If every contact already has an sms delivery row, the loop changes
nothing and reports every contact as `already_exists`. -/
theorem runContacts_all_exists (eid now : Nat) (oracle : SendOracle) :
    ∀ (cs : List Contact) (db : DB),
      (∀ c ∈ cs, smsRowExists db eid c.contact_id = true) →
      runContacts eid now oracle db cs =
        (db, cs.map (fun c =>
          { contact_id := c.contact_id, status := "already_exists", error := none })) := by
  intro cs
  induction cs with
  | nil => intro db _; rfl
  | cons c cs ih =>
    intro db hall
    have hc := processContact_exists eid now oracle db c
      (hall c (List.mem_cons_self c cs))
    show (let p := processContact eid now oracle db c
          let r := runContacts eid now oracle p.1 cs
          (r.1, p.2 :: r.2)) = _
    simp only [hc]
    rw [ih db (fun x hx => hall x (List.mem_cons_of_mem c hx))]
    rfl

/-- With pairwise-distinct contact ids, each contact with no pre-existing
sms row gets exactly its own expected result, regardless of what happens
to the other contacts. -/
theorem runContacts_find (eid now : Nat) (oracle : SendOracle) :
    ∀ (cs : List Contact) (db : DB),
      ((cs.map (fun c => c.contact_id)).Nodup) →
      ∀ c ∈ cs, smsRowExists db eid c.contact_id = false →
      (runContacts eid now oracle db cs).2.find?
          (fun d => d.contact_id == c.contact_id) =
        some { contact_id := c.contact_id,
               status := expectedContactStatus (oracle c.contact_id),
               error := expectedContactError (oracle c.contact_id) } := by
  intro cs
  induction cs with
  | nil => intro db _ c hc; cases hc
  | cons c0 cs ih =>
    intro db hnd c hc hrow
    have hres : (runContacts eid now oracle db (c0 :: cs)).2 =
        (processContact eid now oracle db c0).2 ::
          (runContacts eid now oracle (processContact eid now oracle db c0).1 cs).2 := rfl
    rcases List.mem_cons.mp hc with rfl | hc'
    · rw [hres, List.find?_cons_of_pos _ (by simp [processContact_contact_id])]
      rw [processContact_new eid now oracle db c hrow]
    · have hne : c0.contact_id ≠ c.contact_id := by
        intro hh
        have : c.contact_id ∈ cs.map (fun x => x.contact_id) :=
          List.mem_map_of_mem _ hc'
        rw [← hh] at this
        exact (List.nodup_cons.mp hnd).1 this
      rw [hres, List.find?_cons_of_neg _ (by
        simp [processContact_contact_id]
        exact hne)]
      refine ih (processContact eid now oracle db c0).1
        (List.nodup_cons.mp hnd).2 c hc' ?_
      rw [smsRowExists_processContact_ne eid now oracle db c0 c.contact_id
        (fun hh => hne hh.symm)]
      exact hrow

theorem filter_sent_already (cs : List Contact) :
    (((cs.map (fun c =>
        ({ contact_id := c.contact_id, status := "already_exists",
           error := none } : ContactDelivery))).filter
      (fun d => d.status == "sent")).length) = 0 := by
  induction cs with
  | nil => rfl
  | cons c cs ih => simp [List.filter_cons, ih]

/-- When the event and user are found, sms alerts are on and the contact
list is nonempty, `triggerEscalation` takes the contact-loop path; this
exposes the resulting store and summary. -/
theorem triggerEscalation_contacts (db : DB) (eid now : Nat) (oracle : SendOracle)
    (e : CheckinEvent) (u : User)
    (hfind : eventOf db.events eid = some e)
    (huser : userOf db e.user_id = some u)
    (hsms : u.sms_alerts_enabled = true)
    (hne : contactsOf db e.user_id ≠ []) :
    triggerEscalation db eid now oracle =
      some
        (appendLog
          (runContacts eid now oracle
            (appendLog { db with events := updateEventById db.events eid (escalateUpdater now) }
              { user_id := e.user_id, event_id := some eid,
                event_type := "checkin_escalated", event_time := now, result := "missed" })
            (contactsOf db e.user_id)).1
          { user_id := e.user_id, event_id := some eid,
            event_type := "contacts_alerted", event_time := now, result := "ok" },
         { event_id := eid,
           contacts_notified :=
             ((runContacts eid now oracle
                 (appendLog { db with events := updateEventById db.events eid (escalateUpdater now) }
                   { user_id := e.user_id, event_id := some eid,
                     event_type := "checkin_escalated", event_time := now, result := "missed" })
                 (contactsOf db e.user_id)).2.filter (fun d => d.status == "sent")).length,
           deliveries :=
             (runContacts eid now oracle
                 (appendLog { db with events := updateEventById db.events eid (escalateUpdater now) }
                   { user_id := e.user_id, event_id := some eid,
                     event_type := "checkin_escalated", event_time := now, result := "missed" })
                 (contactsOf db e.user_id)).2 }) := by
  have hfind' : db.events.find? (fun x => x.event_id == eid) = some e := hfind
  unfold triggerEscalation
  simp only [hfind', huser, hsms, Bool.not_true, Bool.false_eq_true, if_false]
  have hemp : (contactsOf
      (appendLog { db with events := updateEventById db.events eid (escalateUpdater now) }
        { user_id := e.user_id, event_id := some eid,
          event_type := "checkin_escalated", event_time := now, result := "missed" })
      e.user_id).isEmpty = false := by
    have h0 : contactsOf
        (appendLog { db with events := updateEventById db.events eid (escalateUpdater now) }
          { user_id := e.user_id, event_id := some eid,
            event_type := "checkin_escalated", event_time := now, result := "missed" })
        e.user_id = contactsOf db e.user_id := rfl
    rw [h0]
    cases hcs : contactsOf db e.user_id with
    | nil => exact absurd hcs hne
    | cons a l => rfl
  rw [if_neg (by rw [hemp]; exact Bool.false_ne_true)]
  rfl

/-! ### Claim C7 — idempotent escalation delivery -/

/-- C7: re-running escalation for an event whose contacts all already have
an sms `AlertDelivery` row creates zero new delivery rows and reports
every contact as `already_exists` (and notifies nobody); the per-contact
guard is the existing-row check on (event, contact, channel). -/
theorem escalation_idempotent_spec (db : DB) (eid now : Nat) (oracle : SendOracle)
    (e : CheckinEvent) (u : User)
    (hfind : eventOf db.events eid = some e)
    (huser : userOf db e.user_id = some u)
    (hsms : u.sms_alerts_enabled = true)
    (hne : contactsOf db e.user_id ≠ [])
    (hall : ∀ c ∈ contactsOf db e.user_id, smsRowExists db eid c.contact_id = true) :
    ∃ db' r, triggerEscalation db eid now oracle = some (db', r) ∧
      db'.deliveries = db.deliveries ∧
      r.deliveries = (contactsOf db e.user_id).map (fun c =>
        { contact_id := c.contact_id, status := "already_exists", error := none }) ∧
      r.contacts_notified = 0 := by
  have htr := triggerEscalation_contacts db eid now oracle e u hfind huser hsms hne
  have hrun := runContacts_all_exists eid now oracle (contactsOf db e.user_id)
    (appendLog { db with events := updateEventById db.events eid (escalateUpdater now) }
      { user_id := e.user_id, event_id := some eid,
        event_type := "checkin_escalated", event_time := now, result := "missed" })
    (fun c hc => hall c hc)
  refine ⟨_, _, htr, ?_, ?_, ?_⟩
  · rw [hrun]
    rfl
  · rw [hrun]
  · rw [hrun]
    exact filter_sent_already (contactsOf db e.user_id)

/-- Concrete instantiation of `escalation_idempotent_spec`: one contact
with an existing sms delivery row; the re-run reports `already_exists` and
adds no rows. -/
theorem escalation_idempotent_spec_witness :
    (eventOf [{ event_id := 10, user_id := 1, scheduled_time := 1000,
                deadline_time := 2000, status := .alerted, confirmed_at := none,
                snoozed_until := none, snooze_count := 0, escalated_at := some 2500,
                created_at := 0, updated_at := 0 }] 10 =
      some { event_id := 10, user_id := 1, scheduled_time := 1000,
             deadline_time := 2000, status := .alerted, confirmed_at := none,
             snoozed_until := none, snooze_count := 0, escalated_at := some 2500,
             created_at := 0, updated_at := 0 }) ∧
    (∃ db' r, triggerEscalation
        ⟨[⟨1, [], 10, true, none, none, 0⟩],
         [{ event_id := 10, user_id := 1, scheduled_time := 1000,
            deadline_time := 2000, status := .alerted, confirmed_at := none,
            snoozed_until := none, snooze_count := 0, escalated_at := some 2500,
            created_at := 0, updated_at := 0 }],
         [⟨5, 1, 77, 1, false, none⟩],
         [{ delivery_id := 3, event_id := 10, contact_id := 5, channel := "sms",
            status := .sent, provider_ref := none, provider_status := none,
            error_message := none, retry_count := 0, max_retries := 3,
            next_retry_at := none, sent_at := some 2500,
            created_at := 0, updated_at := 0 }], [], 20⟩
        10 5000 (fun _ => ⟨true, true, true, "", "", ""⟩) = some (db', r) ∧
      db'.deliveries =
        [{ delivery_id := 3, event_id := 10, contact_id := 5, channel := "sms",
           status := .sent, provider_ref := none, provider_status := none,
           error_message := none, retry_count := 0, max_retries := 3,
           next_retry_at := none, sent_at := some 2500,
           created_at := 0, updated_at := 0 }] ∧
      r.deliveries = [{ contact_id := 5, status := "already_exists", error := none }] ∧
      r.contacts_notified = 0) :=
  ⟨by decide,
    (escalation_idempotent_spec
      ⟨[⟨1, [], 10, true, none, none, 0⟩],
       [{ event_id := 10, user_id := 1, scheduled_time := 1000,
          deadline_time := 2000, status := .alerted, confirmed_at := none,
          snoozed_until := none, snooze_count := 0, escalated_at := some 2500,
          created_at := 0, updated_at := 0 }],
       [⟨5, 1, 77, 1, false, none⟩],
       [{ delivery_id := 3, event_id := 10, contact_id := 5, channel := "sms",
          status := .sent, provider_ref := none, provider_status := none,
          error_message := none, retry_count := 0, max_retries := 3,
          next_retry_at := none, sent_at := some 2500,
          created_at := 0, updated_at := 0 }], [], 20⟩
      10 5000 (fun _ => ⟨true, true, true, "", "", ""⟩)
      { event_id := 10, user_id := 1, scheduled_time := 1000,
        deadline_time := 2000, status := .alerted, confirmed_at := none,
        snoozed_until := none, snooze_count := 0, escalated_at := some 2500,
        created_at := 0, updated_at := 0 }
      ⟨1, [], 10, true, none, none, 0⟩
      (by decide) (by decide) rfl (by decide) (by decide))⟩

/-! ### Claim C8 — partial-failure isolation -/

/-- C8: the escalation call returns exactly one result per contact in
order, and (for distinct contact ids) each contact with no pre-existing
sms row is recorded with the outcome of its own sends only — a thrown
decrypt for one contact yields an `error` result for that contact while
every other contact still gets its own `sent`/`failed`/`error` outcome. -/
theorem escalation_partial_failure_spec (db : DB) (eid now : Nat)
    (oracle : SendOracle) (e : CheckinEvent) (u : User)
    (hfind : eventOf db.events eid = some e)
    (huser : userOf db e.user_id = some u)
    (hsms : u.sms_alerts_enabled = true)
    (hne : contactsOf db e.user_id ≠ [])
    (hndC : ((contactsOf db e.user_id).map (fun c => c.contact_id)).Nodup) :
    ∃ db' r, triggerEscalation db eid now oracle = some (db', r) ∧
      r.deliveries.map (fun d => d.contact_id) =
        (contactsOf db e.user_id).map (fun c => c.contact_id) ∧
      (∀ c ∈ contactsOf db e.user_id, smsRowExists db eid c.contact_id = false →
        r.deliveries.find? (fun d => d.contact_id == c.contact_id) =
          some { contact_id := c.contact_id,
                 status := expectedContactStatus (oracle c.contact_id),
                 error := expectedContactError (oracle c.contact_id) }) := by
  have htr := triggerEscalation_contacts db eid now oracle e u hfind huser hsms hne
  refine ⟨_, _, htr, ?_, ?_⟩
  · exact runContacts_map_ids eid now oracle (contactsOf db e.user_id) _
  · intro c hc hrow
    refine runContacts_find eid now oracle (contactsOf db e.user_id) _ hndC c hc ?_
    exact hrow

/-- Concrete instantiation of `escalation_partial_failure_spec`: three
contacts where contact 6's decrypt throws; all three get results, contact
6 an `error` and contacts 5 and 7 their own `sent` outcomes. -/
theorem escalation_partial_failure_spec_witness :
    (∃ db' r, triggerEscalation
        ⟨[⟨1, [], 10, true, none, none, 0⟩],
         [{ event_id := 10, user_id := 1, scheduled_time := 1000,
            deadline_time := 2000, status := .pending, confirmed_at := none,
            snoozed_until := none, snooze_count := 0, escalated_at := none,
            created_at := 0, updated_at := 0 }],
         [⟨5, 1, 77, 1, false, none⟩, ⟨6, 1, 78, 1, false, none⟩,
          ⟨7, 1, 79, 2, false, none⟩],
         [], [], 20⟩
        10 5000
        (fun cid => if cid = 6 then ⟨true, false, true, "S", "queued", "boom"⟩
                    else ⟨true, true, true, "S", "queued", "boom"⟩) = some (db', r) ∧
      r.deliveries.map (fun d => d.contact_id) = [5, 6, 7] ∧
      r.deliveries.find? (fun d => d.contact_id == 6) =
        some { contact_id := 6, status := "error", error := some "boom" } ∧
      r.deliveries.find? (fun d => d.contact_id == 5) =
        some { contact_id := 5, status := "sent", error := none } ∧
      r.deliveries.find? (fun d => d.contact_id == 7) =
        some { contact_id := 7, status := "sent", error := none }) := by
  obtain ⟨db', r, htr, hmap, hfind⟩ :=
    escalation_partial_failure_spec
      ⟨[⟨1, [], 10, true, none, none, 0⟩],
       [{ event_id := 10, user_id := 1, scheduled_time := 1000,
          deadline_time := 2000, status := .pending, confirmed_at := none,
          snoozed_until := none, snooze_count := 0, escalated_at := none,
          created_at := 0, updated_at := 0 }],
       [⟨5, 1, 77, 1, false, none⟩, ⟨6, 1, 78, 1, false, none⟩,
        ⟨7, 1, 79, 2, false, none⟩],
       [], [], 20⟩
      10 5000
      (fun cid => if cid = 6 then ⟨true, false, true, "S", "queued", "boom"⟩
                  else ⟨true, true, true, "S", "queued", "boom"⟩)
      { event_id := 10, user_id := 1, scheduled_time := 1000,
        deadline_time := 2000, status := .pending, confirmed_at := none,
        snoozed_until := none, snooze_count := 0, escalated_at := none,
        created_at := 0, updated_at := 0 }
      ⟨1, [], 10, true, none, none, 0⟩
      (by decide) (by decide) rfl (by decide) (by decide)
  refine ⟨db', r, htr, ?_, ?_, ?_, ?_⟩
  · simpa using hmap
  · simpa using hfind ⟨6, 1, 78, 1, false, none⟩ (by decide) (by decide)
  · simpa using hfind ⟨5, 1, 77, 1, false, none⟩ (by decide) (by decide)
  · simpa using hfind ⟨7, 1, 79, 2, false, none⟩ (by decide) (by decide)

end AreYouSafe
